import Mathlib

/-!
Shallow embedding of potfit's `force_stiweb.c` (Stillinger-Weber
force/energy/stress evaluation) together with theorems checking the
natural-language specification of that file.

Conventions of the embedding:
* C `double` values are modelled as real numbers (`ℝ`); `exp` is `Real.exp`
  and the two-exponent power routine `power_m` is real exponentiation
  (`Real.rpow`).
* The flat arrays (`forces`, `xi`) are modelled as total functions `ℕ → ℝ`,
  mutated through `Function.update`.
* C `for` loops become the structurally recursive `iterate` combinator
  (fuel is the trip count), threading the mutable state explicitly.
* Pointers into the parameter vector are modelled as `ℕ` addresses
  (the base address of `xi` plus an offset).
-/

namespace Stiweb

/-- 3-vector of reals, mirroring potfit's `vector` struct. -/
@[ext]
structure V3 where
  x : ℝ
  y : ℝ
  z : ℝ

/-- The zero 3-vector. -/
def V3.zero : V3 := ⟨0, 0, 0⟩

/-- Componentwise sum of 3-vectors. -/
def V3.add (u v : V3) : V3 := ⟨u.x + v.x, u.y + v.y, u.z + v.z⟩

/-- Componentwise negation of a 3-vector. -/
def V3.neg (u : V3) : V3 := ⟨-u.x, -u.y, -u.z⟩

/-- `dsquare` from potfit's utils: the square of a double. -/
def dsquare (a : ℝ) : ℝ := a * a

/-- The Stillinger-Weber parameter set as seen through the `sw_t` views:
per pair-type column `A, B, p, q, delta, a1, gamma, a2` and the triple
coupling `lambda`, indexed by atom types.  Each field dereferences the
corresponding `sw->...[col]` pointer. -/
structure SwParams where
  A : ℕ → ℝ
  B : ℕ → ℝ
  p : ℕ → ℝ
  q : ℕ → ℝ
  delta : ℕ → ℝ
  a1 : ℕ → ℝ
  gamma : ℕ → ℝ
  a2 : ℕ → ℝ
  lambda : ℕ → ℕ → ℕ → ℝ

/-- One neighbor-list entry (`neigh_t`): global atom number `nr`, type,
pair-type column `col[0]`, distance `r`, cached inverse distance `inv_r`,
direction vector `dist`, displacement vector `rdist`, and the start index
`ijk_start` of the atom's angular cache for pairs led by this neighbor. -/
structure Neigh where
  nr : ℕ
  typ : ℕ
  col : ℕ
  r : ℝ
  inv_r : ℝ
  dist : V3
  rdist : V3
  ijk_start : ℕ

/-- One atom (`atom_t`): type, neighbor count, neighbor entries, the
precomputed angular cache `angl_part` (cosine at each slot), the
reference-force magnitude `absforce` and the `contrib` flag. -/
structure Atom where
  typ : ℕ
  n_neigh : ℕ
  neigh : ℕ → Neigh
  angl : ℕ → ℝ
  absforce : ℝ
  contrib : Bool

/-- Fuel-driven loop: `iterateAux f fuel a s` performs `fuel` iterations of
the loop body `f` starting at loop index `a`. -/
def iterateAux {σ : Type} (f : ℕ → σ → σ) : ℕ → ℕ → σ → σ
  | 0, _, s => s
  | fuel + 1, a, s => iterateAux f fuel (a + 1) (f a s)

/-- `iterate f a b s` runs the C loop `for (i = a; i < b; i++) s = f i s`. -/
def iterate {σ : Type} (f : ℕ → σ → σ) (a b : ℕ) (s : σ) : σ :=
  iterateAux f (b - a) a s

/-- Add `d` to slot `idx` of the array `f` (a C `f[idx] += d`). -/
def bump (f : ℕ → ℝ) (idx : ℕ) (d : ℝ) : ℕ → ℝ :=
  Function.update f idx (f idx + d)

/-- `bump3 f k v` is `f[k] += v.x; f[k+1] += v.y; f[k+2] += v.z`. -/
def bump3 (f : ℕ → ℝ) (k : ℕ) (v : V3) : ℕ → ℝ :=
  bump (bump (bump f k v.x) (k + 1) v.y) (k + 2) v.z

/-! ## Pair term (lines 188-234)

`power_m(2, power, x, y)` computes `power[i] = x[i] ^ y[i]` with real
exponents; here `x[0] = x[1] = r`, `y[0] = -p`, `y[1] = -q`. -/

/-- Repulsive part `phi_r = A[col] * power[0]` with `power[0] = r ^ (-p)`
(lines 191-196). -/
noncomputable def phi_r (sw : SwParams) (n : Neigh) : ℝ :=
  sw.A n.col * n.r ^ (-sw.p n.col)

/-- Attractive part `phi_a = -B[col] * power[1]` with `power[1] = r ^ (-q)`
(line 197). -/
noncomputable def phi_a (sw : SwParams) (n : Neigh) : ℝ :=
  -sw.B n.col * n.r ^ (-sw.q n.col)

/-- `inv_c = 1 / (r - a1[col])` (line 198). -/
noncomputable def inv_c (sw : SwParams) (n : Neigh) : ℝ :=
  1 / (n.r - sw.a1 n.col)

/-- Cutoff factor `f_cut = exp(delta[col] * inv_c)` (line 199). -/
noncomputable def f_cut (sw : SwParams) (n : Neigh) : ℝ :=
  Real.exp (sw.delta n.col * inv_c sw n)

/-- Pair value `v2_val = (phi_r + phi_a) * f_cut` (line 200). -/
noncomputable def v2_val (sw : SwParams) (n : Neigh) : ℝ :=
  (phi_r sw n + phi_a sw n) * f_cut sw n

/-- Pair gradient (lines 202-203):
`v2_grad = -v2_val*delta*inv_c*inv_c - f_cut*inv_r*(p*phi_r + q*phi_a)`. -/
noncomputable def v2_grad (sw : SwParams) (n : Neigh) : ℝ :=
  -v2_val sw n * sw.delta n.col * inv_c sw n * inv_c sw n
    - f_cut sw n * n.inv_r * (sw.p n.col * phi_r sw n + sw.q n.col * phi_a sw n)

/-! ## Global data of one evaluation

`Globals` bundles the potfit globals read by `calc_forces_stiweb`; atom
indexing follows the source (`conf_atoms + i + cnfstart[h] - firstatom`;
`ℕ` subtraction is harmless because potfit guarantees
`firstatom ≤ cnfstart[h]`).  The `#ifdef` feature switches (`STRESS`,
`FWEIGHT`, `CONTRIB`) appear as Boolean toggles. -/
structure Globals where
  sw : SwParams
  energy_p : ℕ
  stress_p : ℕ
  firstconf : ℕ
  myconf : ℕ
  firstatom : ℕ
  cnfstart : ℕ → ℕ
  inconf : ℕ → ℕ
  conf_atoms : ℕ → Atom
  conf_uf : ℕ → Bool
  conf_us : ℕ → Bool
  conf_vol : ℕ → ℝ
  conf_weight : ℕ → ℝ
  eweight : ℝ
  sweight : ℝ
  force_0 : ℕ → ℝ
  stressOn : Bool
  fweightOn : Bool
  contribOn : Bool
  forceEps : ℝ

/-- Mutable state threaded through the configuration loop: the `forces`
output array and the local objective accumulator `tmpsum`. -/
structure CalcState where
  forces : ℕ → ℝ
  tmpsum : ℝ

/-! ## Cutoff envelope (lines 236-248)

The source stores `f`/`df` into the neighbor record under the guard
`r < a2[col]`; the three-body loop reads them only under the same guard
(lines 259 and 269), so the cache is rendered as the functions below.
The out-of-range branch never reaches a reader and is set to `0`. -/

/-- The cached cutoff-envelope value `neigh->f` (lines 240-247):
`f = exp(gamma[col] / (r - a2[col]))` when `r - a2 < -0.01 * gamma`,
otherwise `0`. -/
noncomputable def envF (sw : SwParams) (n : Neigh) : ℝ :=
  let tmp_r := n.r - sw.a2 n.col
  if tmp_r < -0.01 * sw.gamma n.col then Real.exp (sw.gamma n.col * (1 / tmp_r))
  else 0

/-- The cached cutoff-envelope derivative `neigh->df` (line 243):
`df = -f * gamma[col] * (1/(r-a2))^2 / r`, otherwise `0`. -/
noncomputable def envDF (sw : SwParams) (n : Neigh) : ℝ :=
  let tmp_r := n.r - sw.a2 n.col
  if tmp_r < -0.01 * sw.gamma n.col then
    -envF sw n * sw.gamma n.col * (1 / tmp_r) * (1 / tmp_r) / n.r
  else 0

/-! ## Pair loop (lines 182-249) -/

/-- The six amounts subtracted from the stress components by the pair term
(lines 225-230), in slot order `xx yy zz xy yz zx`. -/
def pairStressSub (rd tf : V3) : Fin 6 → ℝ
  | 0 => 0.5 * rd.x * tf.x
  | 1 => 0.5 * rd.y * tf.y
  | 2 => 0.5 * rd.z * tf.z
  | 3 => 0.5 * rd.x * tf.y
  | 4 => 0.5 * rd.y * tf.z
  | 5 => 0.5 * rd.z * tf.x

/-- Subtract the pair stress amounts from the six slots starting at
`base` (lines 224-230). -/
def subStress (f : ℕ → ℝ) (base : ℕ) (t : Fin 6 → ℝ) : ℕ → ℝ :=
  bump (bump (bump (bump (bump (bump f base (-t 0)) (base + 1) (-t 1))
    (base + 2) (-t 2)) (base + 3) (-t 3)) (base + 4) (-t 4)) (base + 5) (-t 5)

/-- The pair force vector `tmp_force` (lines 215-217): the direction
vector scaled by the (possibly self-halved, lines 206-209) gradient. -/
noncomputable def pairForceVec (sw : SwParams) (n : Neigh) (self : Bool) : V3 :=
  let gr := if self then 0.5 * v2_grad sw n else v2_grad sw n
  ⟨n.dist.x * gr, n.dist.y * gr, n.dist.z * gr⟩

/-- Body of the pair-potential neighbor loop (lines 182-234) for neighbor
`j` of the atom whose force slots start at `k`: energy, force and stress
accumulation for one directed neighbor entry.  The cutoff-envelope cache
write (lines 236-248) is rendered by `envF`/`envDF` and has no effect on
this state. -/
noncomputable def pairLoopBody (g : Globals) (h i k : ℕ) (a : Atom) (j : ℕ)
    (s : CalcState) : CalcState :=
  let nj := a.neigh j
  let self : Bool := nj.nr = i + g.cnfstart h
  let uf := g.conf_uf (h - g.firstconf)
  let us := g.conf_us (h - g.firstconf)
  if nj.r < g.sw.a1 nj.col then
    let v := if self then 0.5 * v2_val g.sw nj else v2_val g.sw nj
    let f1 := bump s.forces (g.energy_p + h) (0.5 * v)
    if uf then
      let tf := pairForceVec g.sw nj self
      let f2 := bump3 f1 k tf
      let f3 := if g.stressOn && us then
          subStress f2 (g.stress_p + 6 * h) (pairStressSub nj.rdist tf)
        else f2
      { s with forces := f3 }
    else { s with forces := f1 }
  else s

/-! ## Three-body loops (lines 251-334) -/

/-- The three-body force vector `force_j` (lines 282-294), for central atom
`i` with neighbors `nj`, `nk` and cached cosine `c`. -/
noncomputable def force_j_sw (sw : SwParams) (ti : ℕ) (nj nk : Neigh) (c : ℝ) : V3 :=
  let lam := sw.lambda ti nj.typ nk.typ
  let tmp := c + 1 / 3
  let tmp_grad1 := lam * envF sw nj * envF sw nk * 2 * tmp
  let tmp_grad2 := lam * tmp * tmp
  let tmp_jj := 1 / (nj.r * nj.r)
  let tmp_jk := 1 / (nj.r * nk.r)
  let tmp_1 := tmp_grad2 * envDF sw nj * envF sw nk - tmp_grad1 * c * tmp_jj
  let tmp_2 := tmp_grad1 * tmp_jk
  ⟨tmp_1 * nj.rdist.x + tmp_2 * nk.rdist.x,
   tmp_1 * nj.rdist.y + tmp_2 * nk.rdist.y,
   tmp_1 * nj.rdist.z + tmp_2 * nk.rdist.z⟩

/-- The three-body force vector `force_k` (lines 296-299). -/
noncomputable def force_k_sw (sw : SwParams) (ti : ℕ) (nj nk : Neigh) (c : ℝ) : V3 :=
  let lam := sw.lambda ti nj.typ nk.typ
  let tmp := c + 1 / 3
  let tmp_grad1 := lam * envF sw nj * envF sw nk * 2 * tmp
  let tmp_grad2 := lam * tmp * tmp
  let tmp_kk := 1 / (nk.r * nk.r)
  let tmp_jk := 1 / (nj.r * nk.r)
  let tmp_1 := tmp_grad2 * envDF sw nk * envF sw nj - tmp_grad1 * c * tmp_kk
  let tmp_2 := tmp_grad1 * tmp_jk
  ⟨tmp_1 * nk.rdist.x + tmp_2 * nj.rdist.x,
   tmp_1 * nk.rdist.y + tmp_2 * nj.rdist.y,
   tmp_1 * nk.rdist.z + tmp_2 * nj.rdist.z⟩

/-- The three-body energy term `v3_val` (lines 274-276). -/
noncomputable def v3_val (sw : SwParams) (ti : ℕ) (nj nk : Neigh) (c : ℝ) : ℝ :=
  let tmp := c + 1 / 3
  sw.lambda ti nj.typ nk.typ * envF sw nj * envF sw nk * tmp * tmp

/-- The six amounts added to the stress components by one three-body
interaction (lines 319-327), in slot order `xx yy zz xy yz zx`. -/
noncomputable def tripleStressAdd (fj rj fk rk : V3) : Fin 6 → ℝ
  | 0 => fj.x * rj.x + fk.x * rk.x
  | 1 => fj.y * rj.y + fk.y * rk.y
  | 2 => fj.z * rj.z + fk.z * rk.z
  | 3 => 0.5 * (fj.y * rj.z + fk.y * rk.z + fj.z * rj.y + fk.z * rk.y)
  | 4 => 0.5 * (fj.z * rj.x + fk.z * rk.x + fj.x * rj.z + fk.x * rk.z)
  | 5 => 0.5 * (fj.x * rj.y + fk.x * rk.y + fj.y * rj.x + fk.y * rk.x)

/-- Add the three-body stress amounts to the six slots starting at `base`
(lines 318-327). -/
def addStress (f : ℕ → ℝ) (base : ℕ) (t : Fin 6 → ℝ) : ℕ → ℝ :=
  bump (bump (bump (bump (bump (bump f base (t 0)) (base + 1) (t 1))
    (base + 2) (t 2)) (base + 3) (t 3)) (base + 4) (t 4)) (base + 5) (t 5)

/-- Body of the inner three-body loop (lines 262-331) for one candidate
pair `(jj, kk)` of neighbor entries: `k` and `l` are the force-slot bases
of atom `i` and of neighbor `jj`, `ijk` is the current angular-cache
index (the source consumes one slot per inner iteration).  Guards: the
`r < a2[col]` check for neighbor `kk` (line 269) and the `lambda == 0`
shortcut (lines 271-272). -/
noncomputable def tripleBody (g : Globals) (us : Bool) (a : Atom)
    (eS sB k l : ℕ) (nj : Neigh) (kk ijk : ℕ) (s : CalcState) : CalcState :=
  let nk := a.neigh kk
  let m := 3 * nk.nr
  if nk.r < g.sw.a2 nk.col then
    if g.sw.lambda a.typ nj.typ nk.typ = 0 then s
    else
      let c := a.angl ijk
      let fj := force_j_sw g.sw a.typ nj nk c
      let fk := force_k_sw g.sw a.typ nj nk c
      let f1 := bump s.forces eS (v3_val g.sw a.typ nj nk c)
      let f2 := bump3 f1 k (V3.add fj fk)
      let f3 := bump3 f2 l (V3.neg fj)
      let f4 := bump3 f3 m (V3.neg fk)
      let f5 := if g.stressOn && us then
          addStress f4 sB (tripleStressAdd fj nj.rdist fk nk.rdist)
        else f4
      { s with forces := f5 }
  else s

/-- Fuel-driven inner three-body loop (lines 261-332): starting at
neighbor index `kk` with angular-cache index `ijk`, run `fuel` iterations,
advancing both counters each time (the source consumes one cache slot per
iteration, before any guard). -/
noncomputable def tripleInnerAux (g : Globals) (us : Bool) (a : Atom)
    (eS sB k l : ℕ) (nj : Neigh) : ℕ → ℕ → ℕ → CalcState → CalcState
  | 0, _, _, s => s
  | fuel + 1, kk, ijk, s =>
      tripleInnerAux g us a eS sB k l nj fuel (kk + 1) (ijk + 1)
        (tripleBody g us a eS sB k l nj kk ijk s)

/-- Inner three-body loop `for (kk = kk0; kk < nn; kk++)`. -/
noncomputable def tripleInner (g : Globals) (us : Bool) (a : Atom)
    (eS sB k l : ℕ) (nj : Neigh) (kk0 nn ijk0 : ℕ) (s : CalcState) : CalcState :=
  tripleInnerAux g us a eS sB k l nj (nn - kk0) kk0 ijk0 s

/-- Body of the outer three-body loop (lines 252-334) for neighbor `jj`:
fetch the neighbor, its force-slot base `l = 3 * nr` and the start of its
angular-cache segment, and, when `r < a2[col]` (line 259), run the inner
loop over the remaining neighbors. -/
noncomputable def tripleOuterBody (g : Globals) (us : Bool) (a : Atom)
    (eS sB k : ℕ) (jj : ℕ) (s : CalcState) : CalcState :=
  let nj := a.neigh jj
  let l := 3 * nj.nr
  if nj.r < g.sw.a2 nj.col then
    tripleInner g us a eS sB k l nj (jj + 1) a.n_neigh nj.ijk_start s
  else s

/-- Outer three-body loop `for (jj = 0; jj < n_neigh - 1; jj++)`. -/
noncomputable def tripleOuter (g : Globals) (us : Bool) (a : Atom)
    (eS sB k : ℕ) (s : CalcState) : CalcState :=
  iterate (tripleOuterBody g us a eS sB k) 0 (a.n_neigh - 1) s

/-- Body of the second loop over atoms (lines 178-335): the pair-potential
neighbor loop followed by the three-body double loop for atom `i` of
configuration `h`. -/
noncomputable def secondLoopBody (g : Globals) (h : ℕ) (i : ℕ)
    (s : CalcState) : CalcState :=
  let a := g.conf_atoms (i + g.cnfstart h - g.firstatom)
  let k := 3 * (g.cnfstart h + i)
  let us := g.conf_us (h - g.firstconf)
  let s1 := iterate (pairLoopBody g h i k a) 0 a.n_neigh s
  tripleOuter g us a (g.energy_p + h) (g.stress_p + 6 * h) k s1

/-- The second loop over the atoms of configuration `h`. -/
noncomputable def secondLoop (g : Globals) (h : ℕ) (s : CalcState) : CalcState :=
  iterate (secondLoopBody g h) 0 (g.inconf h) s

/-- Reset stage (lines 153-174): zero the configuration's energy slot and
(under `STRESS`) its six stress slots, and initialize each atom's force
slots to `-force_0` when force fitting is on, else to `0`. -/
def resetStage (g : Globals) (h : ℕ) (s : CalcState) : CalcState :=
  let uf := g.conf_uf (h - g.firstconf)
  let f1 := Function.update s.forces (g.energy_p + h) 0
  let f2 := if g.stressOn then
      iterate (fun i f => Function.update f (g.stress_p + 6 * h + i) 0) 0 6 f1
    else f1
  let f3 := iterate (fun i f =>
      let k := 3 * (g.cnfstart h + i)
      if uf then
        Function.update (Function.update (Function.update f
          k (-g.force_0 k)) (k + 1) (-g.force_0 (k + 1))) (k + 2) (-g.force_0 (k + 2))
      else
        Function.update (Function.update (Function.update f
          k 0) (k + 1) 0) (k + 2) 0) 0 (g.inconf h) f2
  { s with forces := f3 }

/-- Third loop over atoms (lines 338-358): under `FWEIGHT`, divide each
force residual by `FORCE_EPS + atom->absforce`, then add the weighted
squared residuals to `tmpsum` (under `CONTRIB` only for contributing
atoms).  The source does not reassign the `atom` pointer in this loop: it
still points at the last atom visited by the second loop (index
`inconf[h] - 1`), and both `absforce` and `contrib` are read from there. -/
noncomputable def thirdLoop (g : Globals) (h : ℕ) (s : CalcState) : CalcState :=
  let uf := g.conf_uf (h - g.firstconf)
  if uf then
    let atomStale := g.conf_atoms (g.inconf h - 1 + g.cnfstart h - g.firstatom)
    iterate (fun i st =>
      let n_i := 3 * (g.cnfstart h + i)
      let f1 := if g.fweightOn then
          Function.update (Function.update (Function.update st.forces
            n_i (st.forces n_i / (g.forceEps + atomStale.absforce)))
            (n_i + 1) (st.forces (n_i + 1) / (g.forceEps + atomStale.absforce)))
            (n_i + 2) (st.forces (n_i + 2) / (g.forceEps + atomStale.absforce))
        else st.forces
      let counted := if g.contribOn then atomStale.contrib else true
      { forces := f1,
        tmpsum := if counted then
            st.tmpsum + g.conf_weight h *
              (dsquare (f1 n_i) + dsquare (f1 (n_i + 1)) + dsquare (f1 (n_i + 2)))
          else st.tmpsum }) 0 (g.inconf h) s
  else s

/-- Energy contribution stage (lines 360-363): divide the accumulated
energy by the atom count, subtract the reference energy, and add the
weighted squared residual to `tmpsum`. -/
noncomputable def energyStage (g : Globals) (h : ℕ) (s : CalcState) : CalcState :=
  let e1 := s.forces (g.energy_p + h) / (g.inconf h : ℝ)
  let e2 := e1 - g.force_0 (g.energy_p + h)
  { forces := Function.update s.forces (g.energy_p + h) e2,
    tmpsum := s.tmpsum + g.conf_weight h * g.eweight * dsquare e2 }

/-- Stress contribution stage (lines 364-373): under `STRESS`, when both
force and stress fitting are on, normalize each stress component by the
configuration volume, subtract the reference, and accumulate the weighted
squared residuals. -/
noncomputable def stressStage (g : Globals) (h : ℕ) (s : CalcState) : CalcState :=
  let uf := g.conf_uf (h - g.firstconf)
  let us := g.conf_us (h - g.firstconf)
  if g.stressOn then
    if uf && us then
      iterate (fun i st =>
        let idx := g.stress_p + 6 * h + i
        let v := st.forces idx / g.conf_vol (h - g.firstconf) - g.force_0 idx
        { forces := Function.update st.forces idx v,
          tmpsum := st.tmpsum + g.conf_weight h * g.sweight * dsquare v }) 0 6 s
    else s
  else s

/-- One full configuration (lines 151-375): reset, pair and three-body
accumulation, force residuals, energy residual, stress residuals. -/
noncomputable def configEval (g : Globals) (h : ℕ) (s : CalcState) : CalcState :=
  stressStage g h (energyStage g h (thirdLoop g h (secondLoop g h (resetStage g h s))))

/-! ## Parameter views (`update_stiweb_pointers`, lines 430-491)

Pointers are modelled as `ℕ` addresses; the parameter vector `xi` is a
base address, and `xi + index` is the C pointer arithmetic. -/

/-- The `sw_t` pointer table: for each pair column the addresses of the
eight named parameters, and for each ordered type triple the address of
its `lambda`. -/
structure SwPtrs where
  A : ℕ → ℕ
  B : ℕ → ℕ
  p : ℕ → ℕ
  q : ℕ → ℕ
  delta : ℕ → ℕ
  a1 : ℕ → ℕ
  gamma : ℕ → ℕ
  a2 : ℕ → ℕ
  lambda : ℕ → ℕ → ℕ → ℕ

/-- The freshly allocated pointer table (lines 437-463): every slot null,
modelled as address `0`. -/
def swPtrsInit : SwPtrs :=
  ⟨fun _ => 0, fun _ => 0, fun _ => 0, fun _ => 0, fun _ => 0,
   fun _ => 0, fun _ => 0, fun _ => 0, fun _ _ _ => 0⟩

/-- One iteration of the pair-parameter assignment loop (lines 470-476):
six consecutive slots `A B p q delta a1`, then `index += 2`. -/
def pairBody (xi : ℕ) (i : ℕ) (sp : SwPtrs × ℕ) : SwPtrs × ℕ :=
  ({ sp.1 with
      A := Function.update sp.1.A i (xi + sp.2),
      B := Function.update sp.1.B i (xi + sp.2 + 1),
      p := Function.update sp.1.p i (xi + sp.2 + 2),
      q := Function.update sp.1.q i (xi + sp.2 + 3),
      delta := Function.update sp.1.delta i (xi + sp.2 + 4),
      a1 := Function.update sp.1.a1 i (xi + sp.2 + 5) }, sp.2 + 8)

/-- Pair-parameter assignment loop (lines 469-477). -/
def pairPhase (xi pc : ℕ) (s0 : SwPtrs × ℕ) : SwPtrs × ℕ :=
  iterate (pairBody xi) 0 pc s0

/-- One iteration of the envelope-parameter assignment loop
(lines 479-481): two consecutive slots `gamma a2`, then `index += 2`. -/
def envBody (xi : ℕ) (i : ℕ) (sp : SwPtrs × ℕ) : SwPtrs × ℕ :=
  ({ sp.1 with
      gamma := Function.update sp.1.gamma i (xi + sp.2),
      a2 := Function.update sp.1.a2 i (xi + sp.2 + 1) }, sp.2 + 4)

/-- Envelope-parameter assignment loop (lines 478-482). -/
def envPhase (xi pc : ℕ) (s0 : SwPtrs × ℕ) : SwPtrs × ℕ :=
  iterate (envBody xi) 0 pc s0

/-- Innermost `lambda` assignment (line 487): one slot, then `index++`. -/
def lamBodyK (xi i j : ℕ) (k : ℕ) (sp : SwPtrs × ℕ) : SwPtrs × ℕ :=
  ({ sp.1 with
      lambda := Function.update sp.1.lambda i
        (Function.update (sp.1.lambda i) j
          (Function.update (sp.1.lambda i j) k (xi + sp.2))) }, sp.2 + 1)

/-- Middle `lambda` loop (line 486). -/
def lamBodyJ (xi nt i : ℕ) (j : ℕ) (sp : SwPtrs × ℕ) : SwPtrs × ℕ :=
  iterate (lamBodyK xi i j) 0 nt sp

/-- Outer `lambda` loop (line 485). -/
def lamBodyI (xi nt : ℕ) (i : ℕ) (sp : SwPtrs × ℕ) : SwPtrs × ℕ :=
  iterate (lamBodyJ xi nt i) 0 nt sp

/-- `lambda` assignment (lines 484-487): the triple loop over `(i, j, k)`
hands out consecutive slots in row-major order. -/
def lambdaPhase (xi nt : ℕ) (s0 : SwPtrs × ℕ) : SwPtrs × ℕ :=
  iterate (lamBodyI xi nt) 0 nt s0

/-- The rebuild branch of `update_stiweb_pointers` (lines 467-488),
starting from `index = 2` (line 433). -/
def rebuildPtrs (pc nt xi : ℕ) (s : SwPtrs) : SwPtrs :=
  (lambdaPhase xi nt (envPhase xi pc (pairPhase xi pc (s, 2)))).1

/-- `update_stiweb_pointers` body after allocation: rebuild the views only
when `sw->A[0] != xi + index` with `index = 2` (line 467), i.e. when the
vector's base address changed; otherwise leave the table untouched. -/
def update_stiweb_pointers (pc nt xi : ℕ) (s : SwPtrs) : SwPtrs :=
  if s.A 0 ≠ xi + 2 then rebuildPtrs pc nt xi s else s

/-- Per-iteration pointer refresh as seen from the evaluation loop
(lines 110-121): a call with flag `1` breaks out before reaching
`update_stiweb_pointers`; every other flag value (including `2`) reaches
it unconditionally. -/
def iterRefresh (pc nt : ℕ) (flag : ℤ) (xi : ℕ) (s : SwPtrs) : SwPtrs :=
  if flag = 1 then s else update_stiweb_pointers pc nt xi s

/-! ## Return protocol (lines 380-427) -/

/-- What one iteration of the infinite loop does to the calling process:
return a value from `calc_forces_stiweb`, or stay in the loop. -/
inductive IterOutcome where
  | ret (v : ℝ)
  | stay

/-- The outcome of one loop iteration for process `myid` under control
`flag` when the reduced global sum is `sum`: flag `1` breaks the loop and
falls through to `return -1.0` (line 427); otherwise the root process
returns the sum, NaN-screened (lines 414-423), and every other process
stays in the loop. -/
noncomputable def mpiIterOutcome (isnanB : ℝ → Bool) (myid : ℕ) (flag : ℤ)
    (sum : ℝ) : IterOutcome :=
  if flag = 1 then .ret (-1)
  else if myid = 0 then .ret (if isnanB sum then 10 ^ 31 else sum)
  else .stay

/-- The reduced global sum (line 388): `MPI_Reduce` with `MPI_SUM` over
the per-process partial objectives. -/
noncomputable def mpiReducedSum (localSum : ℕ → ℝ) (np : ℕ) : ℝ :=
  ∑ i ∈ Finset.range np, localSum i

/-! ## Non-MPI entry (lines 90-428 without the `MPI` sections) -/

/-- External collaborators of `calc_forces_stiweb` that live outside this
source file.  Modelled from the spec: `apot_check_params` is the
coordinator-side bounds-clamping pass, `apot_punish` the additive
out-of-bounds penalty, and `isnanB` the C `isnan` test; all three enter
as unconstrained context functions. -/
structure ExternCtx where
  apot_check_params : (ℕ → ℝ) → (ℕ → ℝ)
  apot_punish : (ℕ → ℝ) → (ℕ → ℝ) → ℝ
  isnanB : ℝ → Bool

/-- Read the parameter values through the pointer table: `*(sw->A[i])`
and friends, with the parameter vector placed at base address `0`. -/
def swOfPtrs (xi : ℕ → ℝ) (s : SwPtrs) : SwParams :=
  { A := fun i => xi (s.A i),
    B := fun i => xi (s.B i),
    p := fun i => xi (s.p i),
    q := fun i => xi (s.q i),
    delta := fun i => xi (s.delta i),
    a1 := fun i => xi (s.a1 i),
    gamma := fun i => xi (s.gamma i),
    a2 := fun i => xi (s.a2 i),
    lambda := fun i j k => xi (s.lambda i j k) }

/-- One full evaluation in the non-MPI build (one iteration of the
infinite loop): clamp the parameters, refresh the pointer views, process
every assigned configuration starting from `tmpsum = 0`, and add the
out-of-bounds penalty.  Returns the overwritten output buffer and the
local (equals global) objective sum. -/
noncomputable def calcEvalOnce (ctx : ExternCtx) (g : Globals) (pc nt : ℕ)
    (ptrs : SwPtrs) (xi forces : ℕ → ℝ) : (ℕ → ℝ) × ℝ :=
  let xi1 := ctx.apot_check_params xi
  let ptrs1 := update_stiweb_pointers pc nt 0 ptrs
  let g1 := { g with sw := swOfPtrs xi1 ptrs1 }
  let st := iterate (configEval g1) g.firstconf (g.firstconf + g.myconf)
    ⟨forces, 0⟩
  (st.forces, st.tmpsum + ctx.apot_punish xi1 st.forces)

/-- `calc_forces_stiweb` in a build without `MPI`: `myid` is `0`, the flag
is read into a dead local (line 99) and never branched on, and the first
loop iteration already returns from the function with the NaN-screened
objective (lines 414-423). -/
noncomputable def calc_forces_stiweb_noMPI (ctx : ExternCtx) (g : Globals)
    (pc nt : ℕ) (ptrs : SwPtrs) (xi forces : ℕ → ℝ) (flag : ℤ) :
    (ℕ → ℝ) × ℝ :=
  let r := calcEvalOnce ctx g pc nt ptrs xi forces
  (r.1, if ctx.isnanB r.2 then 10 ^ 31 else r.2)

/-! ## Spec-side reference definitions and concrete instances -/

/-- Reference definition following the spec's words: the symmetrized outer
product of two 3-vectors as a 6-component tensor in slot order
`xx yy zz xy yz zx`. -/
def symOuter (u v : V3) : Fin 6 → ℝ
  | 0 => u.x * v.x
  | 1 => u.y * v.y
  | 2 => u.z * v.z
  | 3 => 0.5 * (u.x * v.y + u.y * v.x)
  | 4 => 0.5 * (u.y * v.z + u.z * v.y)
  | 5 => 0.5 * (u.z * v.x + u.x * v.z)

/-- Reference definition following the spec's words (claim C6): the third
loop with the adaptive force-weighting divisor taken from the atom whose
residual is being scaled, i.e. `conf_atoms[i + cnfstart[h] - firstatom]`
for loop index `i`, instead of the source's stale `atom` pointer. -/
noncomputable def thirdLoopPerAtom (g : Globals) (h : ℕ) (s : CalcState) : CalcState :=
  let uf := g.conf_uf (h - g.firstconf)
  if uf then
    iterate (fun i st =>
      let atomI := g.conf_atoms (i + g.cnfstart h - g.firstatom)
      let n_i := 3 * (g.cnfstart h + i)
      let f1 := if g.fweightOn then
          Function.update (Function.update (Function.update st.forces
            n_i (st.forces n_i / (g.forceEps + atomI.absforce)))
            (n_i + 1) (st.forces (n_i + 1) / (g.forceEps + atomI.absforce)))
            (n_i + 2) (st.forces (n_i + 2) / (g.forceEps + atomI.absforce))
        else st.forces
      let counted := if g.contribOn then atomI.contrib else true
      { forces := f1,
        tmpsum := if counted then
            st.tmpsum + g.conf_weight h *
              (dsquare (f1 n_i) + dsquare (f1 (n_i + 1)) + dsquare (f1 (n_i + 2)))
          else st.tmpsum }) 0 (g.inconf h) s
  else s

/-- Reference definition following the spec's words (claim C2): the
three-body energy assigned to the unordered pair `(jj, kk)` of distinct
neighbor entries of atom `a`:
`lambda[typ_i][typ_j][typ_k] * f_j * f_k * (cos + 1/3)^2` when both
neighbors lie strictly inside their `a2` cutoff and the coupling is
nonzero, else `0`.  The cosine comes from the precomputed angular cache
at slot `ijk_start(jj) + (kk - jj - 1)`. -/
noncomputable def tripleSpecTerm (sw : SwParams) (a : Atom) (jj kk : ℕ) : ℝ :=
  let nj := a.neigh jj
  let nk := a.neigh kk
  if nj.r < sw.a2 nj.col ∧ nk.r < sw.a2 nk.col ∧
      sw.lambda a.typ nj.typ nk.typ ≠ 0 then
    sw.lambda a.typ nj.typ nk.typ * envF sw nj * envF sw nk *
      (a.angl (nj.ijk_start + (kk - jj - 1)) + 1 / 3) ^ 2
  else 0

/-- Concrete parameter set used by the witnesses: unit prefactors and
exponents, pair cutoff `a1 = 2`, triple cutoff `a2 = 3`, unit `lambda`. -/
noncomputable def cSw : SwParams :=
  { A := fun _ => 1, B := fun _ => 1, p := fun _ => 1, q := fun _ => 1,
    delta := fun _ => 1, a1 := fun _ => 2, gamma := fun _ => 1,
    a2 := fun _ => 3, lambda := fun _ _ _ => 1 }

/-- Concrete neighbor at distance `1` along the x axis, global number `1`. -/
noncomputable def cNeigh : Neigh :=
  { nr := 1, typ := 0, col := 0, r := 1, inv_r := 1,
    dist := ⟨1, 0, 0⟩, rdist := ⟨1, 0, 0⟩, ijk_start := 0 }

/-- Concrete neighbor at distance `1` along the y axis, global number `2`. -/
noncomputable def cNeigh2 : Neigh :=
  { nr := 2, typ := 0, col := 0, r := 1, inv_r := 1,
    dist := ⟨0, 1, 0⟩, rdist := ⟨0, 1, 0⟩, ijk_start := 0 }

/-- Concrete central atom with the two neighbors above. -/
noncomputable def cAtom : Atom :=
  { typ := 0, n_neigh := 2, neigh := fun t => if t = 0 then cNeigh else cNeigh2,
    angl := fun _ => 0, absforce := 1, contrib := true }

/-- Concrete globals for the witnesses: one configuration of one atom,
force fitting on, stress fitting on, energy slot `30`, stress base `40`. -/
noncomputable def cGlobals : Globals :=
  { sw := cSw, energy_p := 30, stress_p := 40, firstconf := 0, myconf := 1,
    firstatom := 0, cnfstart := fun _ => 0, inconf := fun _ => 1,
    conf_atoms := fun _ => cAtom, conf_uf := fun _ => true,
    conf_us := fun _ => true, conf_vol := fun _ => 1,
    conf_weight := fun _ => 1, eweight := 1, sweight := 1,
    force_0 := fun _ => 0, stressOn := true, fweightOn := false,
    contribOn := false, forceEps := 1 }

/-- Concrete state: all force slots zero, zero accumulator. -/
noncomputable def cState : CalcState := { forces := fun _ => 0, tmpsum := 0 }

/-- Atom with reference-force magnitude `1` and no neighbors. -/
noncomputable def atomA : Atom :=
  { typ := 0, n_neigh := 0, neigh := fun _ => cNeigh, angl := fun _ => 0,
    absforce := 1, contrib := true }

/-- Atom with reference-force magnitude `3` and no neighbors. -/
noncomputable def atomB : Atom :=
  { typ := 0, n_neigh := 0, neigh := fun _ => cNeigh, angl := fun _ => 0,
    absforce := 3, contrib := true }

/-- Globals for the adaptive-force-weighting check: one configuration of
two atoms with different `absforce` (`1` for atom `0`, `3` for atom `1`),
`FWEIGHT` enabled, `FORCE_EPS` modelled as `1`. -/
noncomputable def gC6 : Globals :=
  { sw := cSw, energy_p := 30, stress_p := 40, firstconf := 0, myconf := 1,
    firstatom := 0, cnfstart := fun _ => 0, inconf := fun _ => 2,
    conf_atoms := fun t => if t = 0 then atomA else atomB,
    conf_uf := fun _ => true, conf_us := fun _ => false,
    conf_vol := fun _ => 1, conf_weight := fun _ => 1, eweight := 1,
    sweight := 1, force_0 := fun _ => 0, stressOn := false,
    fweightOn := true, contribOn := false, forceEps := 1 }

/-- State for the adaptive-force-weighting check: residual `1` in the
x-slot of atom `0`, zero elsewhere. -/
noncomputable def sC6 : CalcState :=
  { forces := fun t => if t = 0 then 1 else 0, tmpsum := 0 }

/-! ## Loop lemmas -/

theorem iterateAux_succ {σ : Type} (f : ℕ → σ → σ) :
    ∀ (n a : ℕ) (s : σ), iterateAux f (n + 1) a s = f (a + n) (iterateAux f n a s) := by
  intro n
  induction n with
  | zero => intro a s; simp [iterateAux]
  | succ m ih =>
      intro a s
      show iterateAux f (m + 1) (a + 1) (f a s) = _
      rw [ih]
      simp [iterateAux]
      ring_nf

theorem iterate_of_ge {σ : Type} (f : ℕ → σ → σ) (a b : ℕ) (s : σ)
    (h : b ≤ a) : iterate f a b s = s := by
  unfold iterate
  have : b - a = 0 := Nat.sub_eq_zero_of_le h
  rw [this]; rfl

theorem iterate_step {σ : Type} (f : ℕ → σ → σ) (a b : ℕ) (s : σ)
    (h : a < b) : iterate f a b s = iterate f (a + 1) b (f a s) := by
  unfold iterate
  have h1 : b - a = (b - (a + 1)) + 1 := by omega
  rw [h1]; rfl

theorem iterate_succ_top {σ : Type} (f : ℕ → σ → σ) (a b : ℕ) (s : σ)
    (h : a ≤ b) : iterate f a (b + 1) s = f b (iterate f a b s) := by
  unfold iterate
  have h1 : b + 1 - a = (b - a) + 1 := by omega
  rw [h1, iterateAux_succ]
  congr 1
  omega

theorem iterate_inv {σ : Type} (f : ℕ → σ → σ) (P : σ → Prop) :
    ∀ (a b : ℕ) (s : σ), (∀ i t, a ≤ i → i < b → P t → P (f i t)) → P s →
      P (iterate f a b s) := by
  intro a b
  induction b with
  | zero => intro s _ hs; rw [iterate_of_ge f a 0 s (Nat.zero_le a)]; exact hs
  | succ m ih =>
      intro s hstep hs
      by_cases hab : a ≤ m
      · rw [iterate_succ_top f a m s hab]
        exact hstep m _ hab (Nat.lt_succ_self m)
          (ih s (fun i t hi1 hi2 => hstep i t hi1 (Nat.lt_succ_of_lt hi2)) hs)
      · rw [iterate_of_ge f a (m + 1) s (by omega)]
        exact hs

/-! ## Slot lemmas for `bump` -/

theorem bump_same (f : ℕ → ℝ) (i : ℕ) (d : ℝ) : bump f i d i = f i + d := by
  simp [bump]

theorem bump_other (f : ℕ → ℝ) (i j : ℕ) (d : ℝ) (h : j ≠ i) :
    bump f i d j = f j := by
  simp [bump, Function.update_noteq h]

theorem bump3_other (f : ℕ → ℝ) (k : ℕ) (v : V3) (j : ℕ)
    (h0 : j ≠ k) (h1 : j ≠ k + 1) (h2 : j ≠ k + 2) : bump3 f k v j = f j := by
  simp [bump3, bump_other _ _ _ _ h0, bump_other _ _ _ _ h1, bump_other _ _ _ _ h2]

theorem subStress_other (f : ℕ → ℝ) (base : ℕ) (t : Fin 6 → ℝ) (j : ℕ)
    (h : ∀ c, c < 6 → j ≠ base + c) : subStress f base t j = f j := by
  have hb : j ≠ base := by have := h 0 (by omega); simpa using this
  simp [subStress, bump_other _ _ _ _ hb,
    bump_other _ _ _ _ (h 1 (by omega)), bump_other _ _ _ _ (h 2 (by omega)),
    bump_other _ _ _ _ (h 3 (by omega)), bump_other _ _ _ _ (h 4 (by omega)),
    bump_other _ _ _ _ (h 5 (by omega))]

theorem addStress_other (f : ℕ → ℝ) (base : ℕ) (t : Fin 6 → ℝ) (j : ℕ)
    (h : ∀ c, c < 6 → j ≠ base + c) : addStress f base t j = f j := by
  have hb : j ≠ base := by have := h 0 (by omega); simpa using this
  simp [addStress, bump_other _ _ _ _ hb,
    bump_other _ _ _ _ (h 1 (by omega)), bump_other _ _ _ _ (h 2 (by omega)),
    bump_other _ _ _ _ (h 3 (by omega)), bump_other _ _ _ _ (h 4 (by omega)),
    bump_other _ _ _ _ (h 5 (by omega))]

theorem bump3_at0 (f : ℕ → ℝ) (k : ℕ) (v : V3) : bump3 f k v k = f k + v.x := by
  unfold bump3
  rw [bump_other _ _ _ _ (by omega : k ≠ k + 2),
    bump_other _ _ _ _ (by omega : k ≠ k + 1), bump_same]

theorem bump3_at1 (f : ℕ → ℝ) (k : ℕ) (v : V3) :
    bump3 f k v (k + 1) = f (k + 1) + v.y := by
  unfold bump3
  rw [bump_other _ _ _ _ (by omega : k + 1 ≠ k + 2), bump_same,
    bump_other _ _ _ _ (by omega : k + 1 ≠ k)]

theorem bump3_at2 (f : ℕ → ℝ) (k : ℕ) (v : V3) :
    bump3 f k v (k + 2) = f (k + 2) + v.z := by
  unfold bump3
  rw [bump_same, bump_other _ _ _ _ (by omega : k + 2 ≠ k + 1),
    bump_other _ _ _ _ (by omega : k + 2 ≠ k)]

theorem subStress_at (f : ℕ → ℝ) (base : ℕ) (t : Fin 6 → ℝ) :
    subStress f base t base = f base - t 0
    ∧ subStress f base t (base + 1) = f (base + 1) - t 1
    ∧ subStress f base t (base + 2) = f (base + 2) - t 2
    ∧ subStress f base t (base + 3) = f (base + 3) - t 3
    ∧ subStress f base t (base + 4) = f (base + 4) - t 4
    ∧ subStress f base t (base + 5) = f (base + 5) - t 5 := by
  unfold subStress
  refine ⟨?_, ?_, ?_, ?_, ?_, ?_⟩
  · rw [bump_other _ _ _ _ (by omega : base ≠ base + 5),
      bump_other _ _ _ _ (by omega : base ≠ base + 4),
      bump_other _ _ _ _ (by omega : base ≠ base + 3),
      bump_other _ _ _ _ (by omega : base ≠ base + 2),
      bump_other _ _ _ _ (by omega : base ≠ base + 1), bump_same]
    ring
  · rw [bump_other _ _ _ _ (by omega : base + 1 ≠ base + 5),
      bump_other _ _ _ _ (by omega : base + 1 ≠ base + 4),
      bump_other _ _ _ _ (by omega : base + 1 ≠ base + 3),
      bump_other _ _ _ _ (by omega : base + 1 ≠ base + 2), bump_same,
      bump_other _ _ _ _ (by omega : base + 1 ≠ base)]
    ring
  · rw [bump_other _ _ _ _ (by omega : base + 2 ≠ base + 5),
      bump_other _ _ _ _ (by omega : base + 2 ≠ base + 4),
      bump_other _ _ _ _ (by omega : base + 2 ≠ base + 3), bump_same,
      bump_other _ _ _ _ (by omega : base + 2 ≠ base + 1),
      bump_other _ _ _ _ (by omega : base + 2 ≠ base)]
    ring
  · rw [bump_other _ _ _ _ (by omega : base + 3 ≠ base + 5),
      bump_other _ _ _ _ (by omega : base + 3 ≠ base + 4), bump_same,
      bump_other _ _ _ _ (by omega : base + 3 ≠ base + 2),
      bump_other _ _ _ _ (by omega : base + 3 ≠ base + 1),
      bump_other _ _ _ _ (by omega : base + 3 ≠ base)]
    ring
  · rw [bump_other _ _ _ _ (by omega : base + 4 ≠ base + 5), bump_same,
      bump_other _ _ _ _ (by omega : base + 4 ≠ base + 3),
      bump_other _ _ _ _ (by omega : base + 4 ≠ base + 2),
      bump_other _ _ _ _ (by omega : base + 4 ≠ base + 1),
      bump_other _ _ _ _ (by omega : base + 4 ≠ base)]
    ring
  · rw [bump_same, bump_other _ _ _ _ (by omega : base + 5 ≠ base + 4),
      bump_other _ _ _ _ (by omega : base + 5 ≠ base + 3),
      bump_other _ _ _ _ (by omega : base + 5 ≠ base + 2),
      bump_other _ _ _ _ (by omega : base + 5 ≠ base + 1),
      bump_other _ _ _ _ (by omega : base + 5 ≠ base)]
    ring

theorem addStress_at (f : ℕ → ℝ) (base : ℕ) (t : Fin 6 → ℝ) :
    addStress f base t base = f base + t 0
    ∧ addStress f base t (base + 1) = f (base + 1) + t 1
    ∧ addStress f base t (base + 2) = f (base + 2) + t 2
    ∧ addStress f base t (base + 3) = f (base + 3) + t 3
    ∧ addStress f base t (base + 4) = f (base + 4) + t 4
    ∧ addStress f base t (base + 5) = f (base + 5) + t 5 := by
  unfold addStress
  refine ⟨?_, ?_, ?_, ?_, ?_, ?_⟩
  · rw [bump_other _ _ _ _ (by omega : base ≠ base + 5),
      bump_other _ _ _ _ (by omega : base ≠ base + 4),
      bump_other _ _ _ _ (by omega : base ≠ base + 3),
      bump_other _ _ _ _ (by omega : base ≠ base + 2),
      bump_other _ _ _ _ (by omega : base ≠ base + 1), bump_same]
  · rw [bump_other _ _ _ _ (by omega : base + 1 ≠ base + 5),
      bump_other _ _ _ _ (by omega : base + 1 ≠ base + 4),
      bump_other _ _ _ _ (by omega : base + 1 ≠ base + 3),
      bump_other _ _ _ _ (by omega : base + 1 ≠ base + 2), bump_same,
      bump_other _ _ _ _ (by omega : base + 1 ≠ base)]
  · rw [bump_other _ _ _ _ (by omega : base + 2 ≠ base + 5),
      bump_other _ _ _ _ (by omega : base + 2 ≠ base + 4),
      bump_other _ _ _ _ (by omega : base + 2 ≠ base + 3), bump_same,
      bump_other _ _ _ _ (by omega : base + 2 ≠ base + 1),
      bump_other _ _ _ _ (by omega : base + 2 ≠ base)]
  · rw [bump_other _ _ _ _ (by omega : base + 3 ≠ base + 5),
      bump_other _ _ _ _ (by omega : base + 3 ≠ base + 4), bump_same,
      bump_other _ _ _ _ (by omega : base + 3 ≠ base + 2),
      bump_other _ _ _ _ (by omega : base + 3 ≠ base + 1),
      bump_other _ _ _ _ (by omega : base + 3 ≠ base)]
  · rw [bump_other _ _ _ _ (by omega : base + 4 ≠ base + 5), bump_same,
      bump_other _ _ _ _ (by omega : base + 4 ≠ base + 3),
      bump_other _ _ _ _ (by omega : base + 4 ≠ base + 2),
      bump_other _ _ _ _ (by omega : base + 4 ≠ base + 1),
      bump_other _ _ _ _ (by omega : base + 4 ≠ base)]
  · rw [bump_same, bump_other _ _ _ _ (by omega : base + 5 ≠ base + 4),
      bump_other _ _ _ _ (by omega : base + 5 ≠ base + 3),
      bump_other _ _ _ _ (by omega : base + 5 ≠ base + 2),
      bump_other _ _ _ _ (by omega : base + 5 ≠ base + 1),
      bump_other _ _ _ _ (by omega : base + 5 ≠ base)]

/-! ## Claims about the return protocol and the non-MPI control flow -/

/-- C9: on every evaluation call (flag other than the terminate value `1`),
only the coordinator (`myid = 0`) returns a value from the loop iteration;
when the reduced global objective is flagged NaN the coordinator returns
the large finite sentinel `10e30 = 10 ^ 31`, and otherwise it returns the
reduced weighted sum-of-squares objective itself; every other process
stays in the loop. -/
theorem stiweb_C9 (isnanB : ℝ → Bool) (myid : ℕ) (flag : ℤ)
    (localSum : ℕ → ℝ) (np : ℕ) (hflag : flag ≠ 1) :
    (∀ v, mpiIterOutcome isnanB myid flag (mpiReducedSum localSum np) =
        .ret v → myid = 0)
    ∧ (isnanB (mpiReducedSum localSum np) = true →
        mpiIterOutcome isnanB 0 flag (mpiReducedSum localSum np) =
          .ret (10 ^ 31))
    ∧ (isnanB (mpiReducedSum localSum np) = false →
        mpiIterOutcome isnanB 0 flag (mpiReducedSum localSum np) =
          .ret (mpiReducedSum localSum np))
    ∧ (myid ≠ 0 →
        mpiIterOutcome isnanB myid flag (mpiReducedSum localSum np) = .stay) := by
  refine ⟨?_, ?_, ?_, ?_⟩
  · intro v hv
    by_cases h0 : myid = 0
    · exact h0
    · simp [mpiIterOutcome, hflag, h0] at hv
  · intro hnan
    simp [mpiIterOutcome, hflag, hnan]
  · intro hnan
    simp [mpiIterOutcome, hflag, hnan]
  · intro h0
    simp [mpiIterOutcome, hflag, h0]

/-- Witness for C9 at a concrete instance: flag `0`, three workers with
partial sums `2` each, a NaN test that never fires. -/
theorem stiweb_C9_witness :
    ((0 : ℤ) ≠ 1) ∧
      ((∀ v, mpiIterOutcome (fun _ => false) 0 0 (mpiReducedSum (fun _ => 2) 3) =
          .ret v → (0 : ℕ) = 0)
      ∧ ((fun (_ : ℝ) => false) (mpiReducedSum (fun _ => 2) 3) = true →
          mpiIterOutcome (fun _ => false) 0 0 (mpiReducedSum (fun _ => 2) 3) =
            .ret (10 ^ 31))
      ∧ ((fun (_ : ℝ) => false) (mpiReducedSum (fun _ => 2) 3) = false →
          mpiIterOutcome (fun _ => false) 0 0 (mpiReducedSum (fun _ => 2) 3) =
            .ret (mpiReducedSum (fun _ => 2) 3))
      ∧ ((0 : ℕ) ≠ 0 →
          mpiIterOutcome (fun _ => false) 0 0 (mpiReducedSum (fun _ => 2) 3) =
            .stay)) :=
  ⟨by decide, stiweb_C9 (fun _ => false) 0 0 (fun _ => 2) 3 (by decide)⟩

/-- C10: in a non-MPI build, `calc_forces_stiweb` ignores the control flag
entirely — every flag value, `1` and `2` included, yields the same single
full evaluation: the clamped parameters are evaluated over all
configurations, the output buffer is the evaluation's buffer, and the
returned scalar is the objective, NaN-screened into the sentinel. -/
theorem stiweb_C10 (ctx : ExternCtx) (g : Globals) (pc nt : ℕ)
    (ptrs : SwPtrs) (xi forces : ℕ → ℝ) :
    (∀ flag flag' : ℤ,
        calc_forces_stiweb_noMPI ctx g pc nt ptrs xi forces flag =
          calc_forces_stiweb_noMPI ctx g pc nt ptrs xi forces flag')
    ∧ (∀ flag : ℤ,
        (calc_forces_stiweb_noMPI ctx g pc nt ptrs xi forces flag).1 =
          (calcEvalOnce ctx g pc nt ptrs xi forces).1
        ∧ (calc_forces_stiweb_noMPI ctx g pc nt ptrs xi forces flag).2 =
            (if ctx.isnanB (calcEvalOnce ctx g pc nt ptrs xi forces).2
             then 10 ^ 31
             else (calcEvalOnce ctx g pc nt ptrs xi forces).2)) :=
  ⟨fun _ _ => rfl, fun _ => ⟨rfl, rfl⟩⟩

/-- C8, counterexample: a call carrying control code `2` (RESYNC) does not
rebuild the views when the vector's base address is unchanged.  Concrete
input: views built for a layout with `paircol = ntypes = 2`, then refreshed
with flag `2` for a layout with `paircol = ntypes = 1` at the same base
address `0`: the refreshed `gamma[0]` view still aliases slot `18`,
while a rebuild from the current vector would alias slot `10`. -/
theorem stiweb_C8_cex :
    (iterRefresh 1 1 2 0 (rebuildPtrs 2 2 0 swPtrsInit)).gamma 0 ≠
      (rebuildPtrs 1 1 0 (rebuildPtrs 2 2 0 swPtrsInit)).gamma 0 := by decide

/-- C8, amended: on every call that is not a terminate (flag `1`) — the
RESYNC code `2` included — each worker runs the pointer-update routine,
which rebuilds all named views from the current vector precisely when the
vector's base address differs from the address aliased by the `A[0]`
view; when the base address is unchanged the existing views are kept
unchanged (so a pure layout change at the same address is not picked
up). -/
theorem stiweb_C8 (pc nt : ℕ) (flag : ℤ) (xi : ℕ) (s : SwPtrs)
    (hflag : flag ≠ 1) :
    (s.A 0 ≠ xi + 2 → iterRefresh pc nt flag xi s = rebuildPtrs pc nt xi s)
    ∧ (s.A 0 = xi + 2 → iterRefresh pc nt flag xi s = s) := by
  constructor
  · intro h
    simp [iterRefresh, update_stiweb_pointers, hflag, h]
  · intro h
    simp [iterRefresh, update_stiweb_pointers, hflag, h]

/-- Witness for C8 (amended) at a concrete instance: flag `2`, base
address `0`, the freshly allocated (all-null) pointer table. -/
theorem stiweb_C8_witness :
    ((2 : ℤ) ≠ 1) ∧
      ((swPtrsInit.A 0 ≠ 0 + 2 →
          iterRefresh 1 1 2 0 swPtrsInit = rebuildPtrs 1 1 0 swPtrsInit)
      ∧ (swPtrsInit.A 0 = 0 + 2 → iterRefresh 1 1 2 0 swPtrsInit = swPtrsInit)) :=
  ⟨by decide, stiweb_C8 1 1 2 0 swPtrsInit (by decide)⟩

/-! ## Layout of the parameter views -/

theorem pairPhase_counter (xi : ℕ) : ∀ (pc idx0 : ℕ) (s0 : SwPtrs),
    (pairPhase xi pc (s0, idx0)).2 = idx0 + 8 * pc := by
  intro pc
  induction pc with
  | zero =>
      intro idx0 s0
      simp [pairPhase, iterate_of_ge]
  | succ n ih =>
      intro idx0 s0
      unfold pairPhase
      rw [iterate_succ_top _ _ _ _ (Nat.zero_le n)]
      show (pairBody xi n (pairPhase xi n (s0, idx0))).2 = idx0 + 8 * (n + 1)
      simp only [pairBody]
      rw [ih]
      omega

theorem pairPhase_assign (xi : ℕ) : ∀ (pc idx0 : ℕ) (s0 : SwPtrs) (i : ℕ),
    i < pc →
      (pairPhase xi pc (s0, idx0)).1.A i = xi + idx0 + 8 * i
      ∧ (pairPhase xi pc (s0, idx0)).1.B i = xi + idx0 + 8 * i + 1
      ∧ (pairPhase xi pc (s0, idx0)).1.p i = xi + idx0 + 8 * i + 2
      ∧ (pairPhase xi pc (s0, idx0)).1.q i = xi + idx0 + 8 * i + 3
      ∧ (pairPhase xi pc (s0, idx0)).1.delta i = xi + idx0 + 8 * i + 4
      ∧ (pairPhase xi pc (s0, idx0)).1.a1 i = xi + idx0 + 8 * i + 5 := by
  intro pc
  induction pc with
  | zero => intro idx0 s0 i hi; omega
  | succ n ih =>
      intro idx0 s0 i hi
      have hstep : pairPhase xi (n + 1) (s0, idx0) =
          pairBody xi n (pairPhase xi n (s0, idx0)) := by
        unfold pairPhase
        rw [iterate_succ_top _ _ _ _ (Nat.zero_le n)]
      rw [hstep]
      by_cases hin : i = n
      · subst hin
        simp only [pairBody, Function.update_same]
        rw [pairPhase_counter]
        omega
      · have hlt : i < n := by omega
        simp only [pairBody, Function.update_noteq hin]
        exact ih idx0 s0 i hlt

theorem pairPhase_keeps (xi pc idx0 : ℕ) (s0 : SwPtrs) :
    (pairPhase xi pc (s0, idx0)).1.gamma = s0.gamma
    ∧ (pairPhase xi pc (s0, idx0)).1.a2 = s0.a2
    ∧ (pairPhase xi pc (s0, idx0)).1.lambda = s0.lambda := by
  unfold pairPhase
  exact iterate_inv (pairBody xi)
    (fun sp => sp.1.gamma = s0.gamma ∧ sp.1.a2 = s0.a2 ∧ sp.1.lambda = s0.lambda)
    0 pc (s0, idx0) (fun i t _ _ ht => ht) ⟨rfl, rfl, rfl⟩

theorem envPhase_counter (xi : ℕ) : ∀ (pc idx0 : ℕ) (s0 : SwPtrs),
    (envPhase xi pc (s0, idx0)).2 = idx0 + 4 * pc := by
  intro pc
  induction pc with
  | zero =>
      intro idx0 s0
      simp [envPhase, iterate_of_ge]
  | succ n ih =>
      intro idx0 s0
      unfold envPhase
      rw [iterate_succ_top _ _ _ _ (Nat.zero_le n)]
      show (envBody xi n (envPhase xi n (s0, idx0))).2 = idx0 + 4 * (n + 1)
      simp only [envBody]
      rw [ih]
      omega

theorem envPhase_assign (xi : ℕ) : ∀ (pc idx0 : ℕ) (s0 : SwPtrs) (i : ℕ),
    i < pc →
      (envPhase xi pc (s0, idx0)).1.gamma i = xi + idx0 + 4 * i
      ∧ (envPhase xi pc (s0, idx0)).1.a2 i = xi + idx0 + 4 * i + 1 := by
  intro pc
  induction pc with
  | zero => intro idx0 s0 i hi; omega
  | succ n ih =>
      intro idx0 s0 i hi
      have hstep : envPhase xi (n + 1) (s0, idx0) =
          envBody xi n (envPhase xi n (s0, idx0)) := by
        unfold envPhase
        rw [iterate_succ_top _ _ _ _ (Nat.zero_le n)]
      rw [hstep]
      by_cases hin : i = n
      · subst hin
        simp only [envBody, Function.update_same]
        rw [envPhase_counter]
        omega
      · have hlt : i < n := by omega
        simp only [envBody, Function.update_noteq hin]
        exact ih idx0 s0 i hlt

theorem envPhase_keeps (xi pc idx0 : ℕ) (s0 : SwPtrs) :
    (envPhase xi pc (s0, idx0)).1.A = s0.A
    ∧ (envPhase xi pc (s0, idx0)).1.B = s0.B
    ∧ (envPhase xi pc (s0, idx0)).1.p = s0.p
    ∧ (envPhase xi pc (s0, idx0)).1.q = s0.q
    ∧ (envPhase xi pc (s0, idx0)).1.delta = s0.delta
    ∧ (envPhase xi pc (s0, idx0)).1.a1 = s0.a1
    ∧ (envPhase xi pc (s0, idx0)).1.lambda = s0.lambda := by
  unfold envPhase
  exact iterate_inv (envBody xi)
    (fun sp => sp.1.A = s0.A ∧ sp.1.B = s0.B ∧ sp.1.p = s0.p ∧ sp.1.q = s0.q
      ∧ sp.1.delta = s0.delta ∧ sp.1.a1 = s0.a1 ∧ sp.1.lambda = s0.lambda)
    0 pc (s0, idx0) (fun i t _ _ ht => ht) ⟨rfl, rfl, rfl, rfl, rfl, rfl, rfl⟩

theorem lamK_counter (xi i j : ℕ) : ∀ (n idx0 : ℕ) (s0 : SwPtrs),
    (iterate (lamBodyK xi i j) 0 n (s0, idx0)).2 = idx0 + n := by
  intro n
  induction n with
  | zero => intro idx0 s0; simp [iterate_of_ge]
  | succ m ih =>
      intro idx0 s0
      rw [iterate_succ_top _ _ _ _ (Nat.zero_le m)]
      show (lamBodyK xi i j m (iterate (lamBodyK xi i j) 0 m (s0, idx0))).2 = _
      simp only [lamBodyK]
      rw [ih]
      omega

theorem lamK_untouched (xi i j : ℕ) : ∀ (n idx0 : ℕ) (s0 : SwPtrs)
    (i' j' k' : ℕ), (i' ≠ i ∨ j' ≠ j) →
      (iterate (lamBodyK xi i j) 0 n (s0, idx0)).1.lambda i' j' k' =
        s0.lambda i' j' k' := by
  intro n idx0 s0 i' j' k' hne
  refine iterate_inv (lamBodyK xi i j)
    (fun sp => sp.1.lambda i' j' k' = s0.lambda i' j' k') 0 n (s0, idx0)
    ?_ rfl
  intro t sp _ _ ht
  simp only [lamBodyK]
  rcases hne with hne | hne
  · rw [Function.update_noteq hne]
    exact ht
  · rw [Function.update_apply]
    split
    · rw [Function.update_noteq hne]
      subst_vars
      exact ht
    · exact ht

theorem lamK_val (xi i j : ℕ) : ∀ (n idx0 : ℕ) (s0 : SwPtrs) (k : ℕ),
    k < n →
      (iterate (lamBodyK xi i j) 0 n (s0, idx0)).1.lambda i j k =
        xi + idx0 + k := by
  intro n
  induction n with
  | zero => intro idx0 s0 k hk; omega
  | succ m ih =>
      intro idx0 s0 k hk
      rw [iterate_succ_top _ _ _ _ (Nat.zero_le m)]
      show (lamBodyK xi i j m (iterate (lamBodyK xi i j) 0 m (s0, idx0))).1.lambda i j k = _
      simp only [lamBodyK, Function.update_same]
      by_cases hkm : k = m
      · subst hkm
        rw [Function.update_same, lamK_counter]
        omega
      · rw [Function.update_noteq hkm]
        exact ih idx0 s0 k (by omega)

theorem lamK_keeps (xi i j n idx0 : ℕ) (s0 : SwPtrs) :
    (iterate (lamBodyK xi i j) 0 n (s0, idx0)).1.A = s0.A
    ∧ (iterate (lamBodyK xi i j) 0 n (s0, idx0)).1.B = s0.B
    ∧ (iterate (lamBodyK xi i j) 0 n (s0, idx0)).1.p = s0.p
    ∧ (iterate (lamBodyK xi i j) 0 n (s0, idx0)).1.q = s0.q
    ∧ (iterate (lamBodyK xi i j) 0 n (s0, idx0)).1.delta = s0.delta
    ∧ (iterate (lamBodyK xi i j) 0 n (s0, idx0)).1.a1 = s0.a1
    ∧ (iterate (lamBodyK xi i j) 0 n (s0, idx0)).1.gamma = s0.gamma
    ∧ (iterate (lamBodyK xi i j) 0 n (s0, idx0)).1.a2 = s0.a2 := by
  exact iterate_inv (lamBodyK xi i j)
    (fun sp => sp.1.A = s0.A ∧ sp.1.B = s0.B ∧ sp.1.p = s0.p ∧ sp.1.q = s0.q
      ∧ sp.1.delta = s0.delta ∧ sp.1.a1 = s0.a1 ∧ sp.1.gamma = s0.gamma
      ∧ sp.1.a2 = s0.a2)
    0 n (s0, idx0) (fun t sp _ _ ht => ht) ⟨rfl, rfl, rfl, rfl, rfl, rfl, rfl, rfl⟩

theorem lamK_counter_sp (xi i j n : ℕ) (sp : SwPtrs × ℕ) :
    (iterate (lamBodyK xi i j) 0 n sp).2 = sp.2 + n := by
  obtain ⟨s0, idx0⟩ := sp
  exact lamK_counter xi i j n idx0 s0

theorem lamK_untouched_sp (xi i j n : ℕ) (sp : SwPtrs × ℕ) (i' j' k' : ℕ)
    (hne : i' ≠ i ∨ j' ≠ j) :
    (iterate (lamBodyK xi i j) 0 n sp).1.lambda i' j' k' =
      sp.1.lambda i' j' k' := by
  obtain ⟨s0, idx0⟩ := sp
  exact lamK_untouched xi i j n idx0 s0 i' j' k' hne

theorem lamK_keeps_sp (xi i j n : ℕ) (sp : SwPtrs × ℕ) :
    (iterate (lamBodyK xi i j) 0 n sp).1.A = sp.1.A
    ∧ (iterate (lamBodyK xi i j) 0 n sp).1.B = sp.1.B
    ∧ (iterate (lamBodyK xi i j) 0 n sp).1.p = sp.1.p
    ∧ (iterate (lamBodyK xi i j) 0 n sp).1.q = sp.1.q
    ∧ (iterate (lamBodyK xi i j) 0 n sp).1.delta = sp.1.delta
    ∧ (iterate (lamBodyK xi i j) 0 n sp).1.a1 = sp.1.a1
    ∧ (iterate (lamBodyK xi i j) 0 n sp).1.gamma = sp.1.gamma
    ∧ (iterate (lamBodyK xi i j) 0 n sp).1.a2 = sp.1.a2 := by
  obtain ⟨s0, idx0⟩ := sp
  exact lamK_keeps xi i j n idx0 s0

theorem lamBodyJ_counter (xi nt i t : ℕ) (sp : SwPtrs × ℕ) :
    (lamBodyJ xi nt i t sp).2 = sp.2 + nt :=
  lamK_counter_sp xi i t nt sp

theorem lamBodyJ_val (xi nt i t : ℕ) (sp : SwPtrs × ℕ) (k : ℕ) (hk : k < nt) :
    (lamBodyJ xi nt i t sp).1.lambda i t k = xi + sp.2 + k := by
  obtain ⟨s0, c0⟩ := sp
  exact lamK_val xi i t nt c0 s0 k hk

theorem lamBodyJ_untouched (xi nt i t : ℕ) (sp : SwPtrs × ℕ) (i' j' k' : ℕ)
    (h : i' ≠ i ∨ j' ≠ t) :
    (lamBodyJ xi nt i t sp).1.lambda i' j' k' = sp.1.lambda i' j' k' :=
  lamK_untouched_sp xi i t nt sp i' j' k' h

theorem lamJ_counter (xi nt i : ℕ) : ∀ (n idx0 : ℕ) (s0 : SwPtrs),
    (iterate (lamBodyJ xi nt i) 0 n (s0, idx0)).2 = idx0 + n * nt := by
  intro n
  induction n with
  | zero => intro idx0 s0; simp [iterate_of_ge]
  | succ m ih =>
      intro idx0 s0
      rw [iterate_succ_top _ _ _ _ (Nat.zero_le m)]
      rw [lamBodyJ_counter, ih]
      ring

theorem lamJ_untouched (xi nt i : ℕ) (n : ℕ) (sp : SwPtrs × ℕ)
    (i' j' k' : ℕ) (hne : i' ≠ i) :
    (iterate (lamBodyJ xi nt i) 0 n sp).1.lambda i' j' k' =
      sp.1.lambda i' j' k' := by
  refine iterate_inv (lamBodyJ xi nt i)
    (fun t => t.1.lambda i' j' k' = sp.1.lambda i' j' k') 0 n sp ?_ rfl
  intro t u _ _ hu
  unfold lamBodyJ
  rw [lamK_untouched_sp _ _ _ _ _ _ _ _ (Or.inl hne)]
  exact hu

theorem lamJ_val (xi nt i : ℕ) : ∀ (n idx0 : ℕ) (s0 : SwPtrs) (j k : ℕ),
    j < n → k < nt →
      (iterate (lamBodyJ xi nt i) 0 n (s0, idx0)).1.lambda i j k =
        xi + idx0 + j * nt + k := by
  intro n
  induction n with
  | zero => intro idx0 s0 j k hj hk; omega
  | succ m ih =>
      intro idx0 s0 j k hj hk
      rw [iterate_succ_top _ _ _ _ (Nat.zero_le m)]
      by_cases hjm : j = m
      · subst hjm
        rw [lamBodyJ_val _ _ _ _ _ k hk, lamJ_counter]
        omega
      · rw [lamBodyJ_untouched _ _ _ _ _ _ _ _ (Or.inr hjm)]
        exact ih idx0 s0 j k (by omega) hk

theorem lamJ_keeps_sp (xi nt i n : ℕ) (sp : SwPtrs × ℕ) :
    (iterate (lamBodyJ xi nt i) 0 n sp).1.A = sp.1.A
    ∧ (iterate (lamBodyJ xi nt i) 0 n sp).1.B = sp.1.B
    ∧ (iterate (lamBodyJ xi nt i) 0 n sp).1.p = sp.1.p
    ∧ (iterate (lamBodyJ xi nt i) 0 n sp).1.q = sp.1.q
    ∧ (iterate (lamBodyJ xi nt i) 0 n sp).1.delta = sp.1.delta
    ∧ (iterate (lamBodyJ xi nt i) 0 n sp).1.a1 = sp.1.a1
    ∧ (iterate (lamBodyJ xi nt i) 0 n sp).1.gamma = sp.1.gamma
    ∧ (iterate (lamBodyJ xi nt i) 0 n sp).1.a2 = sp.1.a2 := by
  refine iterate_inv (lamBodyJ xi nt i)
    (fun t => t.1.A = sp.1.A ∧ t.1.B = sp.1.B ∧ t.1.p = sp.1.p ∧ t.1.q = sp.1.q
      ∧ t.1.delta = sp.1.delta ∧ t.1.a1 = sp.1.a1 ∧ t.1.gamma = sp.1.gamma
      ∧ t.1.a2 = sp.1.a2) 0 n sp ?_
    ⟨rfl, rfl, rfl, rfl, rfl, rfl, rfl, rfl⟩
  intro t u _ _ hu
  unfold lamBodyJ
  obtain ⟨h1, h2, h3, h4, h5, h6, h7, h8⟩ := lamK_keeps_sp xi i t nt u
  rw [h1, h2, h3, h4, h5, h6, h7, h8] at *
  exact hu

theorem lamBodyI_counter (xi nt t : ℕ) (sp : SwPtrs × ℕ) :
    (lamBodyI xi nt t sp).2 = sp.2 + nt * nt := by
  obtain ⟨s0, c0⟩ := sp
  exact lamJ_counter xi nt t nt c0 s0

theorem lamBodyI_val (xi nt t : ℕ) (sp : SwPtrs × ℕ) (j k : ℕ)
    (hj : j < nt) (hk : k < nt) :
    (lamBodyI xi nt t sp).1.lambda t j k = xi + sp.2 + j * nt + k := by
  obtain ⟨s0, c0⟩ := sp
  exact lamJ_val xi nt t nt c0 s0 j k hj hk

theorem lamBodyI_untouched (xi nt t : ℕ) (sp : SwPtrs × ℕ) (i' j' k' : ℕ)
    (h : i' ≠ t) :
    (lamBodyI xi nt t sp).1.lambda i' j' k' = sp.1.lambda i' j' k' :=
  lamJ_untouched xi nt t nt sp i' j' k' h

theorem lamI_counter (xi nt : ℕ) : ∀ (n idx0 : ℕ) (s0 : SwPtrs),
    (iterate (lamBodyI xi nt) 0 n (s0, idx0)).2 = idx0 + n * (nt * nt) := by
  intro n
  induction n with
  | zero => intro idx0 s0; simp [iterate_of_ge]
  | succ m ih =>
      intro idx0 s0
      rw [iterate_succ_top _ _ _ _ (Nat.zero_le m)]
      rw [lamBodyI_counter, ih]
      ring

theorem lamI_val (xi nt : ℕ) : ∀ (n idx0 : ℕ) (s0 : SwPtrs) (i j k : ℕ),
    i < n → j < nt → k < nt →
      (iterate (lamBodyI xi nt) 0 n (s0, idx0)).1.lambda i j k =
        xi + idx0 + i * (nt * nt) + j * nt + k := by
  intro n
  induction n with
  | zero => intro idx0 s0 i j k hi hj hk; omega
  | succ m ih =>
      intro idx0 s0 i j k hi hj hk
      rw [iterate_succ_top _ _ _ _ (Nat.zero_le m)]
      by_cases him : i = m
      · subst him
        rw [lamBodyI_val _ _ _ _ j k hj hk, lamI_counter]
        omega
      · rw [lamBodyI_untouched _ _ _ _ _ _ _ him]
        exact ih idx0 s0 i j k (by omega) hj hk

theorem lamI_keeps_sp (xi nt n : ℕ) (sp : SwPtrs × ℕ) :
    (iterate (lamBodyI xi nt) 0 n sp).1.A = sp.1.A
    ∧ (iterate (lamBodyI xi nt) 0 n sp).1.B = sp.1.B
    ∧ (iterate (lamBodyI xi nt) 0 n sp).1.p = sp.1.p
    ∧ (iterate (lamBodyI xi nt) 0 n sp).1.q = sp.1.q
    ∧ (iterate (lamBodyI xi nt) 0 n sp).1.delta = sp.1.delta
    ∧ (iterate (lamBodyI xi nt) 0 n sp).1.a1 = sp.1.a1
    ∧ (iterate (lamBodyI xi nt) 0 n sp).1.gamma = sp.1.gamma
    ∧ (iterate (lamBodyI xi nt) 0 n sp).1.a2 = sp.1.a2 := by
  refine iterate_inv (lamBodyI xi nt)
    (fun t => t.1.A = sp.1.A ∧ t.1.B = sp.1.B ∧ t.1.p = sp.1.p ∧ t.1.q = sp.1.q
      ∧ t.1.delta = sp.1.delta ∧ t.1.a1 = sp.1.a1 ∧ t.1.gamma = sp.1.gamma
      ∧ t.1.a2 = sp.1.a2) 0 n sp ?_
    ⟨rfl, rfl, rfl, rfl, rfl, rfl, rfl, rfl⟩
  intro t u _ _ hu
  unfold lamBodyI
  obtain ⟨h1, h2, h3, h4, h5, h6, h7, h8⟩ := lamJ_keeps_sp xi nt t nt u
  rw [h1, h2, h3, h4, h5, h6, h7, h8] at *
  exact hu

/-- Closed form of the rebuilt parameter views: the layout starts at
slot `2` of the vector, hands out `8` slots per pair column (six named,
two skipped), then `4` per pair column (two named, two skipped), then the
`lambda` block in row-major `(i, j, k)` order. -/
theorem rebuildPtrs_layout (pc nt xi : ℕ) (s : SwPtrs) (i j k : ℕ) :
    (i < pc →
      (rebuildPtrs pc nt xi s).A i = xi + 2 + 8 * i
      ∧ (rebuildPtrs pc nt xi s).B i = xi + 2 + 8 * i + 1
      ∧ (rebuildPtrs pc nt xi s).p i = xi + 2 + 8 * i + 2
      ∧ (rebuildPtrs pc nt xi s).q i = xi + 2 + 8 * i + 3
      ∧ (rebuildPtrs pc nt xi s).delta i = xi + 2 + 8 * i + 4
      ∧ (rebuildPtrs pc nt xi s).a1 i = xi + 2 + 8 * i + 5
      ∧ (rebuildPtrs pc nt xi s).gamma i = xi + 2 + 8 * pc + 4 * i
      ∧ (rebuildPtrs pc nt xi s).a2 i = xi + 2 + 8 * pc + 4 * i + 1)
    ∧ (i < nt → j < nt → k < nt →
      (rebuildPtrs pc nt xi s).lambda i j k =
        xi + 2 + 12 * pc + (i * nt + j) * nt + k) := by
  have hpair := pairPhase_counter xi pc 2 s
  rcases hp : pairPhase xi pc (s, 2) with ⟨s1, c1⟩
  have hc1 : c1 = 2 + 8 * pc := by rw [hp] at hpair; exact hpair
  have henv := envPhase_counter xi pc c1 s1
  rcases he : envPhase xi pc (s1, c1) with ⟨s2, c2⟩
  have hc2 : c2 = c1 + 4 * pc := by rw [he] at henv; exact henv
  have hreb : rebuildPtrs pc nt xi s = (iterate (lamBodyI xi nt) 0 nt (s2, c2)).1 := by
    unfold rebuildPtrs lambdaPhase
    rw [hp, he]
  constructor
  · intro hi
    obtain ⟨k1, k2, k3, k4, k5, k6, k7, k8⟩ := lamI_keeps_sp xi nt nt (s2, c2)
    obtain ⟨e1, e2, e3, e4, e5, e6, e7⟩ := envPhase_keeps xi pc c1 s1
    rw [he] at e1 e2 e3 e4 e5 e6
    obtain ⟨pa1, pa2, pa3, pa4, pa5, pa6⟩ := pairPhase_assign xi pc 2 s i hi
    rw [hp] at pa1 pa2 pa3 pa4 pa5 pa6
    obtain ⟨ga, gb⟩ := envPhase_assign xi pc c1 s1 i hi
    rw [he] at ga gb
    rw [hreb, k1, k2, k3, k4, k5, k6, k7, k8, e1, e2, e3, e4, e5, e6]
    exact ⟨pa1, pa2, pa3, pa4, pa5, pa6, ga.trans (by omega), gb.trans (by omega)⟩
  · intro hi hj hk
    rw [hreb]
    have hval := lamI_val xi nt nt c2 s2 i j k hi hj hk
    rw [hval]
    have hnt : i * (nt * nt) + j * nt + k = (i * nt + j) * nt + k := by ring
    omega

/-- C7, counterexample: the claim places the first pair type's `A` view on
the first slot of the vector, but the resolved views start at slot `2`:
with one pair type, one atom type and the vector at base address `0`, the
freshly built `A[0]` view aliases address `2`, not address `0`. -/
theorem stiweb_C7_cex :
    (update_stiweb_pointers 1 1 0 swPtrsInit).A 0 ≠ 0 := by decide

/-- C7, amended: the flat vector's layout, as resolved by the named
parameter views, is the claimed one shifted by two leading reserved
slots: starting at slot `2`, each pair type owns six consecutive slots
`(A, B, p, q, delta, a1)` plus two reserved slots; then each pair type
owns two slots `(gamma, a2)` plus two reserved slots; then the `ntypes³`
`lambda` slots follow in row-major `(i, j, k)` order.  In particular the
first pair type's `A` view aliases slot `2`, not the first slot. -/
theorem stiweb_C7 (pc nt xi i j k : ℕ) :
    (i < pc →
      (update_stiweb_pointers pc nt xi swPtrsInit).A i = xi + 2 + 8 * i
      ∧ (update_stiweb_pointers pc nt xi swPtrsInit).B i = xi + 2 + 8 * i + 1
      ∧ (update_stiweb_pointers pc nt xi swPtrsInit).p i = xi + 2 + 8 * i + 2
      ∧ (update_stiweb_pointers pc nt xi swPtrsInit).q i = xi + 2 + 8 * i + 3
      ∧ (update_stiweb_pointers pc nt xi swPtrsInit).delta i = xi + 2 + 8 * i + 4
      ∧ (update_stiweb_pointers pc nt xi swPtrsInit).a1 i = xi + 2 + 8 * i + 5
      ∧ (update_stiweb_pointers pc nt xi swPtrsInit).gamma i = xi + 2 + 8 * pc + 4 * i
      ∧ (update_stiweb_pointers pc nt xi swPtrsInit).a2 i = xi + 2 + 8 * pc + 4 * i + 1)
    ∧ (i < nt → j < nt → k < nt →
      (update_stiweb_pointers pc nt xi swPtrsInit).lambda i j k =
        xi + 2 + 12 * pc + (i * nt + j) * nt + k) := by
  have hguard : update_stiweb_pointers pc nt xi swPtrsInit =
      rebuildPtrs pc nt xi swPtrsInit := by
    unfold update_stiweb_pointers
    rw [if_pos]
    show swPtrsInit.A 0 ≠ xi + 2
    simp [swPtrsInit]
  rw [hguard]
  exact rebuildPtrs_layout pc nt xi swPtrsInit i j k

/-- Witness for C7 (amended) at a concrete instance: two pair types, two
atom types, base address `0`, pair column `1` and type triple
`(1, 1, 0)`. -/
theorem stiweb_C7_witness :
    (1 < 2) ∧
      ((update_stiweb_pointers 2 2 0 swPtrsInit).A 1 = 0 + 2 + 8 * 1
      ∧ (update_stiweb_pointers 2 2 0 swPtrsInit).B 1 = 0 + 2 + 8 * 1 + 1
      ∧ (update_stiweb_pointers 2 2 0 swPtrsInit).p 1 = 0 + 2 + 8 * 1 + 2
      ∧ (update_stiweb_pointers 2 2 0 swPtrsInit).q 1 = 0 + 2 + 8 * 1 + 3
      ∧ (update_stiweb_pointers 2 2 0 swPtrsInit).delta 1 = 0 + 2 + 8 * 1 + 4
      ∧ (update_stiweb_pointers 2 2 0 swPtrsInit).a1 1 = 0 + 2 + 8 * 1 + 5
      ∧ (update_stiweb_pointers 2 2 0 swPtrsInit).gamma 1 = 0 + 2 + 8 * 2 + 4 * 1
      ∧ (update_stiweb_pointers 2 2 0 swPtrsInit).a2 1 = 0 + 2 + 8 * 2 + 4 * 1 + 1)
    ∧ ((update_stiweb_pointers 2 2 0 swPtrsInit).lambda 1 1 0 =
        0 + 2 + 12 * 2 + (1 * 2 + 1) * 2 + 0) :=
  ⟨by decide, (stiweb_C7 2 2 0 1 1 0).1 (by decide),
    (stiweb_C7 2 2 0 1 1 0).2 (by decide) (by decide) (by decide)⟩

/-! ## Claims about the pair term -/

/-- C1: for every neighbor with distance strictly below the pair cutoff
`a1`, the pair evaluation computes `phi_r = A r^(-p)`,
`phi_a = -B r^(-q)`, `f_cut = exp(delta/(r - a1))`,
`v2 = (phi_r + phi_a) f_cut` and the gradient
`v2' = -v2 delta/(r-a1)^2 - f_cut (1/r) (p phi_r + q phi_a)`; for every
neighbor at `r = a1` or beyond, the pair loop body leaves the state
unchanged, so the pair term contributes exactly zero to the
configuration energy, forces and stress. -/
theorem stiweb_C1 (g : Globals) (n : Neigh) (h i k j : ℕ) (a : Atom)
    (s : CalcState) (hinv : n.inv_r = 1 / n.r) :
    (n.r < g.sw.a1 n.col →
        phi_r g.sw n = g.sw.A n.col * n.r ^ (-g.sw.p n.col)
      ∧ phi_a g.sw n = -g.sw.B n.col * n.r ^ (-g.sw.q n.col)
      ∧ f_cut g.sw n = Real.exp (g.sw.delta n.col / (n.r - g.sw.a1 n.col))
      ∧ v2_val g.sw n = (phi_r g.sw n + phi_a g.sw n) * f_cut g.sw n
      ∧ v2_grad g.sw n =
          -v2_val g.sw n * g.sw.delta n.col / (n.r - g.sw.a1 n.col) ^ 2
            - f_cut g.sw n * (1 / n.r) *
              (g.sw.p n.col * phi_r g.sw n + g.sw.q n.col * phi_a g.sw n))
    ∧ (g.sw.a1 (a.neigh j).col ≤ (a.neigh j).r →
        pairLoopBody g h i k a j s = s) := by
  constructor
  · intro _
    refine ⟨rfl, rfl, ?_, rfl, ?_⟩
    · unfold f_cut inv_c
      rw [mul_one_div]
    · have key : ∀ y x : ℝ, y * (1 / x) * (1 / x) = y / x ^ 2 := by
        intro y x
        rw [mul_one_div, mul_one_div, div_div, ← pow_two]
      unfold v2_grad inv_c
      rw [hinv, key]
  · intro hge
    simp only [pairLoopBody]
    rw [if_neg (not_lt.mpr hge)]

/-- Witness for C1 at a concrete instance: the unit-parameter set with
`a1 = 2` and a neighbor at distance `1`. -/
theorem stiweb_C1_witness :
    (cNeigh.inv_r = 1 / cNeigh.r) ∧
      ((cNeigh.r < cGlobals.sw.a1 cNeigh.col →
          phi_r cGlobals.sw cNeigh =
            cGlobals.sw.A cNeigh.col * cNeigh.r ^ (-cGlobals.sw.p cNeigh.col)
        ∧ phi_a cGlobals.sw cNeigh =
            -cGlobals.sw.B cNeigh.col * cNeigh.r ^ (-cGlobals.sw.q cNeigh.col)
        ∧ f_cut cGlobals.sw cNeigh =
            Real.exp (cGlobals.sw.delta cNeigh.col /
              (cNeigh.r - cGlobals.sw.a1 cNeigh.col))
        ∧ v2_val cGlobals.sw cNeigh =
            (phi_r cGlobals.sw cNeigh + phi_a cGlobals.sw cNeigh) *
              f_cut cGlobals.sw cNeigh
        ∧ v2_grad cGlobals.sw cNeigh =
            -v2_val cGlobals.sw cNeigh * cGlobals.sw.delta cNeigh.col /
                (cNeigh.r - cGlobals.sw.a1 cNeigh.col) ^ 2
              - f_cut cGlobals.sw cNeigh * (1 / cNeigh.r) *
                (cGlobals.sw.p cNeigh.col * phi_r cGlobals.sw cNeigh +
                  cGlobals.sw.q cNeigh.col * phi_a cGlobals.sw cNeigh))
      ∧ (cGlobals.sw.a1 (cAtom.neigh 0).col ≤ (cAtom.neigh 0).r →
          pairLoopBody cGlobals 0 0 0 cAtom 0 cState = cState)) :=
  ⟨by norm_num [cNeigh],
    stiweb_C1 cGlobals cNeigh 0 0 0 0 cAtom cState (by norm_num [cNeigh])⟩

/-! ## Claim about momentum conservation of one triple interaction -/

/-- C3: for a single three-body interaction among atoms `i`, `j`, `k`
(force-slot bases `k`, `l`, `3*nr_k`), the applied force contributions
conserve momentum exactly: atom `i` receives `+force_j + force_k`, atom
`j` receives `-force_j`, atom `k` receives `-force_k`, and the sum of the
three applied contributions is the zero vector, componentwise. -/
theorem stiweb_C3 (g : Globals) (us : Bool) (a : Atom) (eS sB k l : ℕ)
    (nj : Neigh) (kk ijk : ℕ) (s : CalcState) (fj fk : V3)
    (hfj : fj = force_j_sw g.sw a.typ nj (a.neigh kk) (a.angl ijk))
    (hfk : fk = force_k_sw g.sw a.typ nj (a.neigh kk) (a.angl ijk))
    (hrk : (a.neigh kk).r < g.sw.a2 (a.neigh kk).col)
    (hlam : g.sw.lambda a.typ nj.typ (a.neigh kk).typ ≠ 0)
    (hsep : ∀ c c' : ℕ, c < 3 → c' < 3 →
      k + c ≠ l + c' ∧ k + c ≠ 3 * (a.neigh kk).nr + c'
        ∧ l + c ≠ 3 * (a.neigh kk).nr + c')
    (hE : ∀ c : ℕ, c < 3 →
      k + c ≠ eS ∧ l + c ≠ eS ∧ 3 * (a.neigh kk).nr + c ≠ eS)
    (hS : ∀ c c' : ℕ, c < 3 → c' < 6 →
      k + c ≠ sB + c' ∧ l + c ≠ sB + c' ∧ 3 * (a.neigh kk).nr + c ≠ sB + c') :
    ((tripleBody g us a eS sB k l nj kk ijk s).forces k =
        s.forces k + (fj.x + fk.x)
    ∧ (tripleBody g us a eS sB k l nj kk ijk s).forces (k + 1) =
        s.forces (k + 1) + (fj.y + fk.y)
    ∧ (tripleBody g us a eS sB k l nj kk ijk s).forces (k + 2) =
        s.forces (k + 2) + (fj.z + fk.z))
    ∧ ((tripleBody g us a eS sB k l nj kk ijk s).forces l =
        s.forces l - fj.x
    ∧ (tripleBody g us a eS sB k l nj kk ijk s).forces (l + 1) =
        s.forces (l + 1) - fj.y
    ∧ (tripleBody g us a eS sB k l nj kk ijk s).forces (l + 2) =
        s.forces (l + 2) - fj.z)
    ∧ ((tripleBody g us a eS sB k l nj kk ijk s).forces (3 * (a.neigh kk).nr) =
        s.forces (3 * (a.neigh kk).nr) - fk.x
    ∧ (tripleBody g us a eS sB k l nj kk ijk s).forces (3 * (a.neigh kk).nr + 1) =
        s.forces (3 * (a.neigh kk).nr + 1) - fk.y
    ∧ (tripleBody g us a eS sB k l nj kk ijk s).forces (3 * (a.neigh kk).nr + 2) =
        s.forces (3 * (a.neigh kk).nr + 2) - fk.z)
    ∧ (∀ c : ℕ, c < 3 →
        ((tripleBody g us a eS sB k l nj kk ijk s).forces (k + c) -
            s.forces (k + c))
          + ((tripleBody g us a eS sB k l nj kk ijk s).forces (l + c) -
              s.forces (l + c))
          + ((tripleBody g us a eS sB k l nj kk ijk s).forces
                (3 * (a.neigh kk).nr + c) -
              s.forces (3 * (a.neigh kk).nr + c)) = 0) := by
  subst hfj hfk
  have hred : (tripleBody g us a eS sB k l nj kk ijk s).forces =
      (if g.stressOn && us then
        addStress (bump3 (bump3 (bump3 (bump s.forces eS
            (v3_val g.sw a.typ nj (a.neigh kk) (a.angl ijk))) k
            (V3.add (force_j_sw g.sw a.typ nj (a.neigh kk) (a.angl ijk))
              (force_k_sw g.sw a.typ nj (a.neigh kk) (a.angl ijk))))
            l (V3.neg (force_j_sw g.sw a.typ nj (a.neigh kk) (a.angl ijk))))
            (3 * (a.neigh kk).nr)
            (V3.neg (force_k_sw g.sw a.typ nj (a.neigh kk) (a.angl ijk))))
          sB (tripleStressAdd (force_j_sw g.sw a.typ nj (a.neigh kk) (a.angl ijk))
            nj.rdist (force_k_sw g.sw a.typ nj (a.neigh kk) (a.angl ijk))
            (a.neigh kk).rdist)
      else bump3 (bump3 (bump3 (bump s.forces eS
            (v3_val g.sw a.typ nj (a.neigh kk) (a.angl ijk))) k
            (V3.add (force_j_sw g.sw a.typ nj (a.neigh kk) (a.angl ijk))
              (force_k_sw g.sw a.typ nj (a.neigh kk) (a.angl ijk))))
            l (V3.neg (force_j_sw g.sw a.typ nj (a.neigh kk) (a.angl ijk))))
            (3 * (a.neigh kk).nr)
            (V3.neg (force_k_sw g.sw a.typ nj (a.neigh kk) (a.angl ijk)))) := by
    simp only [tripleBody]
    rw [if_pos hrk, if_neg hlam]
  have hk0 : (tripleBody g us a eS sB k l nj kk ijk s).forces k =
      s.forces k + ((force_j_sw g.sw a.typ nj (a.neigh kk) (a.angl ijk)).x +
        (force_k_sw g.sw a.typ nj (a.neigh kk) (a.angl ijk)).x) := by
    rw [hred, apply_ite (fun f : ℕ → ℝ => f k),
      addStress_other _ _ _ k (fun c hc => by
        have := (hS 0 c (by omega) hc).1; omega), ite_self,
      bump3_other _ _ _ k (by have := (hsep 0 0 (by omega) (by omega)).2.1; omega)
        (by have := (hsep 0 1 (by omega) (by omega)).2.1; omega)
        (by have := (hsep 0 2 (by omega) (by omega)).2.1; omega),
      bump3_other _ _ _ k (by have := (hsep 0 0 (by omega) (by omega)).1; omega)
        (by have := (hsep 0 1 (by omega) (by omega)).1; omega)
        (by have := (hsep 0 2 (by omega) (by omega)).1; omega),
      bump3_at0, bump_other _ _ _ _ (by have := (hE 0 (by omega)).1; omega)]
    simp [V3.add]
  have hk1 : (tripleBody g us a eS sB k l nj kk ijk s).forces (k + 1) =
      s.forces (k + 1) + ((force_j_sw g.sw a.typ nj (a.neigh kk) (a.angl ijk)).y +
        (force_k_sw g.sw a.typ nj (a.neigh kk) (a.angl ijk)).y) := by
    rw [hred, apply_ite (fun f : ℕ → ℝ => f (k + 1)),
      addStress_other _ _ _ (k + 1) (fun c hc => by
        have := (hS 1 c (by omega) hc).1; omega), ite_self,
      bump3_other _ _ _ (k + 1) (by have := (hsep 1 0 (by omega) (by omega)).2.1; omega)
        (by have := (hsep 1 1 (by omega) (by omega)).2.1; omega)
        (by have := (hsep 1 2 (by omega) (by omega)).2.1; omega),
      bump3_other _ _ _ (k + 1) (by have := (hsep 1 0 (by omega) (by omega)).1; omega)
        (by have := (hsep 1 1 (by omega) (by omega)).1; omega)
        (by have := (hsep 1 2 (by omega) (by omega)).1; omega),
      bump3_at1, bump_other _ _ _ _ (by have := (hE 1 (by omega)).1; omega)]
    simp [V3.add]
  have hk2 : (tripleBody g us a eS sB k l nj kk ijk s).forces (k + 2) =
      s.forces (k + 2) + ((force_j_sw g.sw a.typ nj (a.neigh kk) (a.angl ijk)).z +
        (force_k_sw g.sw a.typ nj (a.neigh kk) (a.angl ijk)).z) := by
    rw [hred, apply_ite (fun f : ℕ → ℝ => f (k + 2)),
      addStress_other _ _ _ (k + 2) (fun c hc => by
        have := (hS 2 c (by omega) hc).1; omega), ite_self,
      bump3_other _ _ _ (k + 2) (by have := (hsep 2 0 (by omega) (by omega)).2.1; omega)
        (by have := (hsep 2 1 (by omega) (by omega)).2.1; omega)
        (by have := (hsep 2 2 (by omega) (by omega)).2.1; omega),
      bump3_other _ _ _ (k + 2) (by have := (hsep 2 0 (by omega) (by omega)).1; omega)
        (by have := (hsep 2 1 (by omega) (by omega)).1; omega)
        (by have := (hsep 2 2 (by omega) (by omega)).1; omega),
      bump3_at2, bump_other _ _ _ _ (by have := (hE 2 (by omega)).1; omega)]
    simp [V3.add]
  have hl0 : (tripleBody g us a eS sB k l nj kk ijk s).forces l =
      s.forces l - (force_j_sw g.sw a.typ nj (a.neigh kk) (a.angl ijk)).x := by
    rw [hred, apply_ite (fun f : ℕ → ℝ => f l),
      addStress_other _ _ _ l (fun c hc => by
        have := (hS 0 c (by omega) hc).2.1; omega), ite_self,
      bump3_other _ _ _ l (by have := (hsep 0 0 (by omega) (by omega)).2.2; omega)
        (by have := (hsep 0 1 (by omega) (by omega)).2.2; omega)
        (by have := (hsep 0 2 (by omega) (by omega)).2.2; omega),
      bump3_at0,
      bump3_other _ _ _ l (by have := (hsep 0 0 (by omega) (by omega)).1; omega)
        (by have := (hsep 1 0 (by omega) (by omega)).1; omega)
        (by have := (hsep 2 0 (by omega) (by omega)).1; omega),
      bump_other _ _ _ _ (by have := (hE 0 (by omega)).2.1; omega)]
    simp [V3.neg]
    ring
  have hl1 : (tripleBody g us a eS sB k l nj kk ijk s).forces (l + 1) =
      s.forces (l + 1) - (force_j_sw g.sw a.typ nj (a.neigh kk) (a.angl ijk)).y := by
    rw [hred, apply_ite (fun f : ℕ → ℝ => f (l + 1)),
      addStress_other _ _ _ (l + 1) (fun c hc => by
        have := (hS 1 c (by omega) hc).2.1; omega), ite_self,
      bump3_other _ _ _ (l + 1) (by have := (hsep 1 0 (by omega) (by omega)).2.2; omega)
        (by have := (hsep 1 1 (by omega) (by omega)).2.2; omega)
        (by have := (hsep 1 2 (by omega) (by omega)).2.2; omega),
      bump3_at1,
      bump3_other _ _ _ (l + 1) (by have := (hsep 0 1 (by omega) (by omega)).1; omega)
        (by have := (hsep 1 1 (by omega) (by omega)).1; omega)
        (by have := (hsep 2 1 (by omega) (by omega)).1; omega),
      bump_other _ _ _ _ (by have := (hE 1 (by omega)).2.1; omega)]
    simp [V3.neg]
    ring
  have hl2 : (tripleBody g us a eS sB k l nj kk ijk s).forces (l + 2) =
      s.forces (l + 2) - (force_j_sw g.sw a.typ nj (a.neigh kk) (a.angl ijk)).z := by
    rw [hred, apply_ite (fun f : ℕ → ℝ => f (l + 2)),
      addStress_other _ _ _ (l + 2) (fun c hc => by
        have := (hS 2 c (by omega) hc).2.1; omega), ite_self,
      bump3_other _ _ _ (l + 2) (by have := (hsep 2 0 (by omega) (by omega)).2.2; omega)
        (by have := (hsep 2 1 (by omega) (by omega)).2.2; omega)
        (by have := (hsep 2 2 (by omega) (by omega)).2.2; omega),
      bump3_at2,
      bump3_other _ _ _ (l + 2) (by have := (hsep 0 2 (by omega) (by omega)).1; omega)
        (by have := (hsep 1 2 (by omega) (by omega)).1; omega)
        (by have := (hsep 2 2 (by omega) (by omega)).1; omega),
      bump_other _ _ _ _ (by have := (hE 2 (by omega)).2.1; omega)]
    simp [V3.neg]
    ring
  have hm0 : (tripleBody g us a eS sB k l nj kk ijk s).forces (3 * (a.neigh kk).nr) =
      s.forces (3 * (a.neigh kk).nr) -
        (force_k_sw g.sw a.typ nj (a.neigh kk) (a.angl ijk)).x := by
    rw [hred, apply_ite (fun f : ℕ → ℝ => f (3 * (a.neigh kk).nr)),
      addStress_other _ _ _ (3 * (a.neigh kk).nr) (fun c hc => by
        have := (hS 0 c (by omega) hc).2.2; omega), ite_self,
      bump3_at0,
      bump3_other _ _ _ (3 * (a.neigh kk).nr)
        (by have := (hsep 0 0 (by omega) (by omega)).2.2; omega)
        (by have := (hsep 1 0 (by omega) (by omega)).2.2; omega)
        (by have := (hsep 2 0 (by omega) (by omega)).2.2; omega),
      bump3_other _ _ _ (3 * (a.neigh kk).nr)
        (by have := (hsep 0 0 (by omega) (by omega)).2.1; omega)
        (by have := (hsep 1 0 (by omega) (by omega)).2.1; omega)
        (by have := (hsep 2 0 (by omega) (by omega)).2.1; omega),
      bump_other _ _ _ _ (by have := (hE 0 (by omega)).2.2; omega)]
    simp [V3.neg]
    ring
  have hm1 : (tripleBody g us a eS sB k l nj kk ijk s).forces (3 * (a.neigh kk).nr + 1) =
      s.forces (3 * (a.neigh kk).nr + 1) -
        (force_k_sw g.sw a.typ nj (a.neigh kk) (a.angl ijk)).y := by
    rw [hred, apply_ite (fun f : ℕ → ℝ => f (3 * (a.neigh kk).nr + 1)),
      addStress_other _ _ _ (3 * (a.neigh kk).nr + 1) (fun c hc => by
        have := (hS 1 c (by omega) hc).2.2; omega), ite_self,
      bump3_at1,
      bump3_other _ _ _ (3 * (a.neigh kk).nr + 1)
        (by have := (hsep 0 1 (by omega) (by omega)).2.2; omega)
        (by have := (hsep 1 1 (by omega) (by omega)).2.2; omega)
        (by have := (hsep 2 1 (by omega) (by omega)).2.2; omega),
      bump3_other _ _ _ (3 * (a.neigh kk).nr + 1)
        (by have := (hsep 0 1 (by omega) (by omega)).2.1; omega)
        (by have := (hsep 1 1 (by omega) (by omega)).2.1; omega)
        (by have := (hsep 2 1 (by omega) (by omega)).2.1; omega),
      bump_other _ _ _ _ (by have := (hE 1 (by omega)).2.2; omega)]
    simp [V3.neg]
    ring
  have hm2 : (tripleBody g us a eS sB k l nj kk ijk s).forces (3 * (a.neigh kk).nr + 2) =
      s.forces (3 * (a.neigh kk).nr + 2) -
        (force_k_sw g.sw a.typ nj (a.neigh kk) (a.angl ijk)).z := by
    rw [hred, apply_ite (fun f : ℕ → ℝ => f (3 * (a.neigh kk).nr + 2)),
      addStress_other _ _ _ (3 * (a.neigh kk).nr + 2) (fun c hc => by
        have := (hS 2 c (by omega) hc).2.2; omega), ite_self,
      bump3_at2,
      bump3_other _ _ _ (3 * (a.neigh kk).nr + 2)
        (by have := (hsep 0 2 (by omega) (by omega)).2.2; omega)
        (by have := (hsep 1 2 (by omega) (by omega)).2.2; omega)
        (by have := (hsep 2 2 (by omega) (by omega)).2.2; omega),
      bump3_other _ _ _ (3 * (a.neigh kk).nr + 2)
        (by have := (hsep 0 2 (by omega) (by omega)).2.1; omega)
        (by have := (hsep 1 2 (by omega) (by omega)).2.1; omega)
        (by have := (hsep 2 2 (by omega) (by omega)).2.1; omega),
      bump_other _ _ _ _ (by have := (hE 2 (by omega)).2.2; omega)]
    simp [V3.neg]
    ring
  refine ⟨⟨hk0, hk1, hk2⟩, ⟨hl0, hl1, hl2⟩, ⟨hm0, hm1, hm2⟩, ?_⟩
  intro c hc
  interval_cases c
  · rw [show k + 0 = k from rfl, show l + 0 = l from rfl,
      show 3 * (a.neigh kk).nr + 0 = 3 * (a.neigh kk).nr from rfl,
      hk0, hl0, hm0]
    ring
  · rw [hk1, hl1, hm1]
    ring
  · rw [hk2, hl2, hm2]
    ring

/-- Witness for C3 at a concrete instance: central atom `cAtom` with
neighbors `cNeigh` (slot base `3`) and `cNeigh2` (slot base `6`), central
slots at `9`, energy slot `30`, stress base `40`. -/
theorem stiweb_C3_witness :
    ((cAtom.neigh 1).r < cGlobals.sw.a2 (cAtom.neigh 1).col)
    ∧ (cGlobals.sw.lambda cAtom.typ cNeigh.typ (cAtom.neigh 1).typ ≠ 0)
    ∧ (∀ c c' : ℕ, c < 3 → c' < 3 →
        9 + c ≠ 3 + c' ∧ 9 + c ≠ 3 * (cAtom.neigh 1).nr + c'
          ∧ 3 + c ≠ 3 * (cAtom.neigh 1).nr + c')
    ∧ (∀ c : ℕ, c < 3 →
        9 + c ≠ 30 ∧ 3 + c ≠ 30 ∧ 3 * (cAtom.neigh 1).nr + c ≠ 30)
    ∧ (∀ c : ℕ, c < 3 →
        ((tripleBody cGlobals false cAtom 30 40 9 3 cNeigh 1 0 cState).forces (9 + c) -
            cState.forces (9 + c))
          + ((tripleBody cGlobals false cAtom 30 40 9 3 cNeigh 1 0 cState).forces (3 + c) -
              cState.forces (3 + c))
          + ((tripleBody cGlobals false cAtom 30 40 9 3 cNeigh 1 0 cState).forces
                (3 * (cAtom.neigh 1).nr + c) -
              cState.forces (3 * (cAtom.neigh 1).nr + c)) = 0) := by
  have hnr : (cAtom.neigh 1).nr = 2 := by norm_num [cAtom, cNeigh2]
  have hrk : (cAtom.neigh 1).r < cGlobals.sw.a2 (cAtom.neigh 1).col := by
    norm_num [cAtom, cNeigh2, cGlobals, cSw]
  have hlam : cGlobals.sw.lambda cAtom.typ cNeigh.typ (cAtom.neigh 1).typ ≠ 0 := by
    norm_num [cGlobals, cSw]
  have hsep : ∀ c c' : ℕ, c < 3 → c' < 3 →
      9 + c ≠ 3 + c' ∧ 9 + c ≠ 3 * (cAtom.neigh 1).nr + c'
        ∧ 3 + c ≠ 3 * (cAtom.neigh 1).nr + c' := by
    intro c c' hc hc'
    rw [hnr]
    omega
  have hE : ∀ c : ℕ, c < 3 →
      9 + c ≠ 30 ∧ 3 + c ≠ 30 ∧ 3 * (cAtom.neigh 1).nr + c ≠ 30 := by
    intro c hc
    rw [hnr]
    omega
  have hS : ∀ c c' : ℕ, c < 3 → c' < 6 →
      9 + c ≠ 40 + c' ∧ 3 + c ≠ 40 + c' ∧ 3 * (cAtom.neigh 1).nr + c ≠ 40 + c' := by
    intro c c' hc hc'
    rw [hnr]
    omega
  exact ⟨hrk, hlam, hsep, hE,
    (stiweb_C3 cGlobals false cAtom 30 40 9 3 cNeigh 1 0 cState
      (force_j_sw cGlobals.sw cAtom.typ cNeigh (cAtom.neigh 1) (cAtom.angl 0))
      (force_k_sw cGlobals.sw cAtom.typ cNeigh (cAtom.neigh 1) (cAtom.angl 0))
      rfl rfl hrk hlam hsep hE hS).2.2.2⟩

/-! ## Claim about the stress accumulation signs -/

/-- C5: with stress fitting enabled, each pair-term stress contribution is
subtracted from the six stress slots — slot `c` decreases by
`pairStressSub`, which carries the `0.5` factor and, for a displacement
parallel to the direction vector, equals `0.5` times the symmetrized
outer product of displacement and pair force — while each three-body
contribution is added: slot `c` increases by `tripleStressAdd`, which
equals the sum of the symmetrized outer products `force_j ⊗ r_j` and
`force_k ⊗ r_k`.  The two terms use opposite accumulation signs. -/
theorem stiweb_C5 (g : Globals) (h i k j : ℕ) (a : Atom) (s : CalcState)
    (selfB : Bool) (nj : Neigh) (kk ijk eS kT lT : ℕ)
    (hguard : (a.neigh j).r < g.sw.a1 (a.neigh j).col)
    (hselfB : (decide ((a.neigh j).nr = i + g.cnfstart h)) = selfB)
    (huf : g.conf_uf (h - g.firstconf) = true)
    (hus : g.conf_us (h - g.firstconf) = true)
    (hstress : g.stressOn = true)
    (hksl : ∀ c c' : ℕ, c < 6 → c' < 3 → g.stress_p + 6 * h + c ≠ k + c')
    (hesl : ∀ c : ℕ, c < 6 → g.stress_p + 6 * h + c ≠ g.energy_p + h)
    (hpar : (a.neigh j).rdist =
      ⟨(a.neigh j).r * (a.neigh j).dist.x, (a.neigh j).r * (a.neigh j).dist.y,
        (a.neigh j).r * (a.neigh j).dist.z⟩)
    (hrk : (a.neigh kk).r < g.sw.a2 (a.neigh kk).col)
    (hlam : g.sw.lambda a.typ nj.typ (a.neigh kk).typ ≠ 0)
    (hT : ∀ c c' : ℕ, c < 6 → c' < 3 →
      g.stress_p + 6 * h + c ≠ kT + c' ∧ g.stress_p + 6 * h + c ≠ lT + c'
        ∧ g.stress_p + 6 * h + c ≠ 3 * (a.neigh kk).nr + c')
    (hTe : ∀ c : ℕ, c < 6 → g.stress_p + 6 * h + c ≠ eS) :
    ((pairLoopBody g h i k a j s).forces (g.stress_p + 6 * h) =
        s.forces (g.stress_p + 6 * h) -
          pairStressSub (a.neigh j).rdist (pairForceVec g.sw (a.neigh j) selfB) 0
    ∧ (pairLoopBody g h i k a j s).forces (g.stress_p + 6 * h + 1) =
        s.forces (g.stress_p + 6 * h + 1) -
          pairStressSub (a.neigh j).rdist (pairForceVec g.sw (a.neigh j) selfB) 1
    ∧ (pairLoopBody g h i k a j s).forces (g.stress_p + 6 * h + 2) =
        s.forces (g.stress_p + 6 * h + 2) -
          pairStressSub (a.neigh j).rdist (pairForceVec g.sw (a.neigh j) selfB) 2
    ∧ (pairLoopBody g h i k a j s).forces (g.stress_p + 6 * h + 3) =
        s.forces (g.stress_p + 6 * h + 3) -
          pairStressSub (a.neigh j).rdist (pairForceVec g.sw (a.neigh j) selfB) 3
    ∧ (pairLoopBody g h i k a j s).forces (g.stress_p + 6 * h + 4) =
        s.forces (g.stress_p + 6 * h + 4) -
          pairStressSub (a.neigh j).rdist (pairForceVec g.sw (a.neigh j) selfB) 4
    ∧ (pairLoopBody g h i k a j s).forces (g.stress_p + 6 * h + 5) =
        s.forces (g.stress_p + 6 * h + 5) -
          pairStressSub (a.neigh j).rdist (pairForceVec g.sw (a.neigh j) selfB) 5)
    ∧ (∀ c : Fin 6,
        pairStressSub (a.neigh j).rdist (pairForceVec g.sw (a.neigh j) selfB) c =
          0.5 * symOuter (a.neigh j).rdist (pairForceVec g.sw (a.neigh j) selfB) c)
    ∧ ((tripleBody g true a eS (g.stress_p + 6 * h) kT lT nj kk ijk s).forces
          (g.stress_p + 6 * h) =
        s.forces (g.stress_p + 6 * h) +
          tripleStressAdd (force_j_sw g.sw a.typ nj (a.neigh kk) (a.angl ijk))
            nj.rdist (force_k_sw g.sw a.typ nj (a.neigh kk) (a.angl ijk))
            (a.neigh kk).rdist 0
    ∧ (tripleBody g true a eS (g.stress_p + 6 * h) kT lT nj kk ijk s).forces
          (g.stress_p + 6 * h + 1) =
        s.forces (g.stress_p + 6 * h + 1) +
          tripleStressAdd (force_j_sw g.sw a.typ nj (a.neigh kk) (a.angl ijk))
            nj.rdist (force_k_sw g.sw a.typ nj (a.neigh kk) (a.angl ijk))
            (a.neigh kk).rdist 1
    ∧ (tripleBody g true a eS (g.stress_p + 6 * h) kT lT nj kk ijk s).forces
          (g.stress_p + 6 * h + 2) =
        s.forces (g.stress_p + 6 * h + 2) +
          tripleStressAdd (force_j_sw g.sw a.typ nj (a.neigh kk) (a.angl ijk))
            nj.rdist (force_k_sw g.sw a.typ nj (a.neigh kk) (a.angl ijk))
            (a.neigh kk).rdist 2
    ∧ (tripleBody g true a eS (g.stress_p + 6 * h) kT lT nj kk ijk s).forces
          (g.stress_p + 6 * h + 3) =
        s.forces (g.stress_p + 6 * h + 3) +
          tripleStressAdd (force_j_sw g.sw a.typ nj (a.neigh kk) (a.angl ijk))
            nj.rdist (force_k_sw g.sw a.typ nj (a.neigh kk) (a.angl ijk))
            (a.neigh kk).rdist 3
    ∧ (tripleBody g true a eS (g.stress_p + 6 * h) kT lT nj kk ijk s).forces
          (g.stress_p + 6 * h + 4) =
        s.forces (g.stress_p + 6 * h + 4) +
          tripleStressAdd (force_j_sw g.sw a.typ nj (a.neigh kk) (a.angl ijk))
            nj.rdist (force_k_sw g.sw a.typ nj (a.neigh kk) (a.angl ijk))
            (a.neigh kk).rdist 4
    ∧ (tripleBody g true a eS (g.stress_p + 6 * h) kT lT nj kk ijk s).forces
          (g.stress_p + 6 * h + 5) =
        s.forces (g.stress_p + 6 * h + 5) +
          tripleStressAdd (force_j_sw g.sw a.typ nj (a.neigh kk) (a.angl ijk))
            nj.rdist (force_k_sw g.sw a.typ nj (a.neigh kk) (a.angl ijk))
            (a.neigh kk).rdist 5)
    ∧ (∀ u v w z : V3,
        tripleStressAdd u v w z 0 = symOuter u v 0 + symOuter w z 0
      ∧ tripleStressAdd u v w z 1 = symOuter u v 1 + symOuter w z 1
      ∧ tripleStressAdd u v w z 2 = symOuter u v 2 + symOuter w z 2
      ∧ tripleStressAdd u v w z 3 = symOuter u v 4 + symOuter w z 4
      ∧ tripleStressAdd u v w z 4 = symOuter u v 5 + symOuter w z 5
      ∧ tripleStressAdd u v w z 5 = symOuter u v 3 + symOuter w z 3) := by
  have hredP : (pairLoopBody g h i k a j s).forces =
      subStress (bump3 (bump s.forces (g.energy_p + h)
          (0.5 * (if selfB then 0.5 * v2_val g.sw (a.neigh j)
                  else v2_val g.sw (a.neigh j)))) k
          (pairForceVec g.sw (a.neigh j) selfB))
        (g.stress_p + 6 * h)
        (pairStressSub (a.neigh j).rdist (pairForceVec g.sw (a.neigh j) selfB)) := by
    simp only [pairLoopBody, hselfB, huf, hus, hstress, Bool.and_self,
      if_pos hguard, if_true]
  have hSP := subStress_at (bump3 (bump s.forces (g.energy_p + h)
      (0.5 * (if selfB then 0.5 * v2_val g.sw (a.neigh j)
              else v2_val g.sw (a.neigh j)))) k
      (pairForceVec g.sw (a.neigh j) selfB)) (g.stress_p + 6 * h)
      (pairStressSub (a.neigh j).rdist (pairForceVec g.sw (a.neigh j) selfB))
  have hpeel : ∀ c : ℕ, c < 6 →
      bump3 (bump s.forces (g.energy_p + h)
          (0.5 * (if selfB then 0.5 * v2_val g.sw (a.neigh j)
                  else v2_val g.sw (a.neigh j)))) k
        (pairForceVec g.sw (a.neigh j) selfB) (g.stress_p + 6 * h + c) =
      s.forces (g.stress_p + 6 * h + c) := by
    intro c hc
    rw [bump3_other _ _ _ _ (by have := hksl c 0 hc (by omega); omega)
        (by have := hksl c 1 hc (by omega); omega)
        (by have := hksl c 2 hc (by omega); omega),
      bump_other _ _ _ _ (hesl c hc)]
  have hpeel0 : bump3 (bump s.forces (g.energy_p + h)
      (0.5 * (if selfB then 0.5 * v2_val g.sw (a.neigh j)
              else v2_val g.sw (a.neigh j)))) k
      (pairForceVec g.sw (a.neigh j) selfB) (g.stress_p + 6 * h) =
      s.forces (g.stress_p + 6 * h) := by
    have := hpeel 0 (by omega)
    simpa using this
  refine ⟨⟨?_, ?_, ?_, ?_, ?_, ?_⟩, ?_, ?_, ?_⟩
  · rw [hredP, hSP.1, hpeel0]
  · rw [hredP, hSP.2.1, hpeel 1 (by omega)]
  · rw [hredP, hSP.2.2.1, hpeel 2 (by omega)]
  · rw [hredP, hSP.2.2.2.1, hpeel 3 (by omega)]
  · rw [hredP, hSP.2.2.2.2.1, hpeel 4 (by omega)]
  · rw [hredP, hSP.2.2.2.2.2, hpeel 5 (by omega)]
  · intro c
    fin_cases c <;>
      · simp only [pairStressSub, symOuter, pairForceVec, hpar]
        ring
  · have hredT : (tripleBody g true a eS (g.stress_p + 6 * h) kT lT nj kk ijk s).forces =
        addStress (bump3 (bump3 (bump3 (bump s.forces eS
            (v3_val g.sw a.typ nj (a.neigh kk) (a.angl ijk))) kT
            (V3.add (force_j_sw g.sw a.typ nj (a.neigh kk) (a.angl ijk))
              (force_k_sw g.sw a.typ nj (a.neigh kk) (a.angl ijk))))
            lT (V3.neg (force_j_sw g.sw a.typ nj (a.neigh kk) (a.angl ijk))))
            (3 * (a.neigh kk).nr)
            (V3.neg (force_k_sw g.sw a.typ nj (a.neigh kk) (a.angl ijk))))
          (g.stress_p + 6 * h)
          (tripleStressAdd (force_j_sw g.sw a.typ nj (a.neigh kk) (a.angl ijk))
            nj.rdist (force_k_sw g.sw a.typ nj (a.neigh kk) (a.angl ijk))
            (a.neigh kk).rdist) := by
      simp only [tripleBody, hstress, Bool.and_self, if_true]
      rw [if_pos hrk, if_neg hlam]
    have hAT := addStress_at (bump3 (bump3 (bump3 (bump s.forces eS
        (v3_val g.sw a.typ nj (a.neigh kk) (a.angl ijk))) kT
        (V3.add (force_j_sw g.sw a.typ nj (a.neigh kk) (a.angl ijk))
          (force_k_sw g.sw a.typ nj (a.neigh kk) (a.angl ijk))))
        lT (V3.neg (force_j_sw g.sw a.typ nj (a.neigh kk) (a.angl ijk))))
        (3 * (a.neigh kk).nr)
        (V3.neg (force_k_sw g.sw a.typ nj (a.neigh kk) (a.angl ijk))))
        (g.stress_p + 6 * h)
        (tripleStressAdd (force_j_sw g.sw a.typ nj (a.neigh kk) (a.angl ijk))
          nj.rdist (force_k_sw g.sw a.typ nj (a.neigh kk) (a.angl ijk))
          (a.neigh kk).rdist)
    have hpeelT : ∀ c : ℕ, c < 6 →
        bump3 (bump3 (bump3 (bump s.forces eS
            (v3_val g.sw a.typ nj (a.neigh kk) (a.angl ijk))) kT
            (V3.add (force_j_sw g.sw a.typ nj (a.neigh kk) (a.angl ijk))
              (force_k_sw g.sw a.typ nj (a.neigh kk) (a.angl ijk))))
            lT (V3.neg (force_j_sw g.sw a.typ nj (a.neigh kk) (a.angl ijk))))
            (3 * (a.neigh kk).nr)
            (V3.neg (force_k_sw g.sw a.typ nj (a.neigh kk) (a.angl ijk)))
            (g.stress_p + 6 * h + c) =
        s.forces (g.stress_p + 6 * h + c) := by
      intro c hc
      rw [bump3_other _ _ _ _ (by have := (hT c 0 hc (by omega)).2.2; omega)
          (by have := (hT c 1 hc (by omega)).2.2; omega)
          (by have := (hT c 2 hc (by omega)).2.2; omega),
        bump3_other _ _ _ _ (by have := (hT c 0 hc (by omega)).2.1; omega)
          (by have := (hT c 1 hc (by omega)).2.1; omega)
          (by have := (hT c 2 hc (by omega)).2.1; omega),
        bump3_other _ _ _ _ (by have := (hT c 0 hc (by omega)).1; omega)
          (by have := (hT c 1 hc (by omega)).1; omega)
          (by have := (hT c 2 hc (by omega)).1; omega),
        bump_other _ _ _ _ (hTe c hc)]
    have hpeelT0 : bump3 (bump3 (bump3 (bump s.forces eS
        (v3_val g.sw a.typ nj (a.neigh kk) (a.angl ijk))) kT
        (V3.add (force_j_sw g.sw a.typ nj (a.neigh kk) (a.angl ijk))
          (force_k_sw g.sw a.typ nj (a.neigh kk) (a.angl ijk))))
        lT (V3.neg (force_j_sw g.sw a.typ nj (a.neigh kk) (a.angl ijk))))
        (3 * (a.neigh kk).nr)
        (V3.neg (force_k_sw g.sw a.typ nj (a.neigh kk) (a.angl ijk)))
        (g.stress_p + 6 * h) =
        s.forces (g.stress_p + 6 * h) := by
      have := hpeelT 0 (by omega)
      simpa using this
    refine ⟨?_, ?_, ?_, ?_, ?_, ?_⟩
    · rw [hredT, hAT.1, hpeelT0]
    · rw [hredT, hAT.2.1, hpeelT 1 (by omega)]
    · rw [hredT, hAT.2.2.1, hpeelT 2 (by omega)]
    · rw [hredT, hAT.2.2.2.1, hpeelT 3 (by omega)]
    · rw [hredT, hAT.2.2.2.2.1, hpeelT 4 (by omega)]
    · rw [hredT, hAT.2.2.2.2.2, hpeelT 5 (by omega)]
  · intro u v w z
    refine ⟨?_, ?_, ?_, ?_, ?_, ?_⟩ <;> simp only [tripleStressAdd, symOuter] <;> ring

/-- Witness for C5 at a concrete instance: pair neighbor `cNeigh` inside
`a1`, triple partner `cNeigh2` inside `a2`, stress slots `40..45`,
exhibiting the subtracted pair contribution and the added three-body
contribution on the first stress slot. -/
theorem stiweb_C5_witness :
    ((cAtom.neigh 0).r < cGlobals.sw.a1 (cAtom.neigh 0).col)
    ∧ (decide ((cAtom.neigh 0).nr = 0 + cGlobals.cnfstart 0) = false)
    ∧ ((cAtom.neigh 1).r < cGlobals.sw.a2 (cAtom.neigh 1).col)
    ∧ (cGlobals.sw.lambda cAtom.typ cNeigh.typ (cAtom.neigh 1).typ ≠ 0)
    ∧ ((pairLoopBody cGlobals 0 0 9 cAtom 0 cState).forces
          (cGlobals.stress_p + 6 * 0) =
        cState.forces (cGlobals.stress_p + 6 * 0) -
          pairStressSub (cAtom.neigh 0).rdist
            (pairForceVec cGlobals.sw (cAtom.neigh 0) false) 0)
    ∧ ((tripleBody cGlobals true cAtom 30 (cGlobals.stress_p + 6 * 0) 9 3
          cNeigh 1 0 cState).forces (cGlobals.stress_p + 6 * 0) =
        cState.forces (cGlobals.stress_p + 6 * 0) +
          tripleStressAdd
            (force_j_sw cGlobals.sw cAtom.typ cNeigh (cAtom.neigh 1) (cAtom.angl 0))
            cNeigh.rdist
            (force_k_sw cGlobals.sw cAtom.typ cNeigh (cAtom.neigh 1) (cAtom.angl 0))
            (cAtom.neigh 1).rdist 0) := by
  have hnr : (cAtom.neigh 1).nr = 2 := by norm_num [cAtom, cNeigh2]
  have hguard : (cAtom.neigh 0).r < cGlobals.sw.a1 (cAtom.neigh 0).col := by
    norm_num [cAtom, cNeigh, cGlobals, cSw]
  have hselfB : (decide ((cAtom.neigh 0).nr = 0 + cGlobals.cnfstart 0)) = false := by
    simp [cAtom, cNeigh, cGlobals]
  have hrk : (cAtom.neigh 1).r < cGlobals.sw.a2 (cAtom.neigh 1).col := by
    norm_num [cAtom, cNeigh2, cGlobals, cSw]
  have hlam : cGlobals.sw.lambda cAtom.typ cNeigh.typ (cAtom.neigh 1).typ ≠ 0 := by
    norm_num [cGlobals, cSw]
  have hmain := stiweb_C5 cGlobals 0 0 9 0 cAtom cState false cNeigh 1 0 30 9 3
    hguard hselfB rfl rfl rfl
    (by intro c c' hc hc'; simp only [cGlobals]; omega)
    (by intro c hc; simp only [cGlobals]; omega)
    (by simp [cAtom, cNeigh])
    hrk hlam
    (by intro c c' hc hc'; rw [hnr]; simp only [cGlobals]; omega)
    (by intro c hc; simp only [cGlobals]; omega)
  exact ⟨hguard, hselfB, hrk, hlam, hmain.1.1, hmain.2.2.1.1⟩

/-! ## Claim about energy normalization -/

/-- C4: after the pair and three-body passes of a configuration, the
stored per-configuration energy is the raw accumulated sum (the energy
slot after the second loop) divided by the configuration's atom count
minus the reference energy, and the energy stage increases the local
objective by the configuration weight times the energy weight times the
square of that residual.  The hypotheses separate the energy slot from
the force and stress slots of the configuration, as in potfit's buffer
layout. -/
theorem stiweb_C4 (g : Globals) (h : ℕ) (s : CalcState)
    (hsl3 : ∀ i c : ℕ, i < g.inconf h → c < 3 →
      3 * (g.cnfstart h + i) + c ≠ g.energy_p + h)
    (hsl6 : ∀ c : ℕ, c < 6 → g.stress_p + 6 * h + c ≠ g.energy_p + h) :
    (configEval g h s).forces (g.energy_p + h) =
        (secondLoop g h (resetStage g h s)).forces (g.energy_p + h) /
            (g.inconf h : ℝ) - g.force_0 (g.energy_p + h)
    ∧ (energyStage g h (thirdLoop g h (secondLoop g h (resetStage g h s)))).tmpsum =
        (thirdLoop g h (secondLoop g h (resetStage g h s))).tmpsum
          + g.conf_weight h * g.eweight *
            dsquare ((secondLoop g h (resetStage g h s)).forces (g.energy_p + h) /
              (g.inconf h : ℝ) - g.force_0 (g.energy_p + h)) := by
  have h3 : ∀ t : CalcState,
      (thirdLoop g h t).forces (g.energy_p + h) = t.forces (g.energy_p + h) := by
    intro t
    simp only [thirdLoop]
    split
    · refine iterate_inv _
        (fun st => st.forces (g.energy_p + h) = t.forces (g.energy_p + h))
        0 (g.inconf h) t ?_ rfl
      intro i st _ hi2 hst
      dsimp only
      by_cases hfw : g.fweightOn
      · simp only [hfw, if_true]
        rw [Function.update_noteq (by have := hsl3 i 2 hi2 (by omega); omega),
          Function.update_noteq (by have := hsl3 i 1 hi2 (by omega); omega),
          Function.update_noteq (by have := hsl3 i 0 hi2 (by omega); omega)]
        exact hst
      · simp only [hfw, if_false]
        exact hst
    · rfl
  have hss : ∀ t : CalcState,
      (stressStage g h t).forces (g.energy_p + h) = t.forces (g.energy_p + h) := by
    intro t
    simp only [stressStage]
    split
    · split
      · refine iterate_inv _
          (fun st => st.forces (g.energy_p + h) = t.forces (g.energy_p + h))
          0 6 t ?_ rfl
        intro i st _ hi2 hst
        dsimp only
        rw [Function.update_noteq (by have := hsl6 i hi2; omega)]
        exact hst
      · rfl
    · rfl
  have hen : ∀ t : CalcState,
      (energyStage g h t).forces (g.energy_p + h) =
        t.forces (g.energy_p + h) / (g.inconf h : ℝ) -
          g.force_0 (g.energy_p + h) := by
    intro t
    simp only [energyStage]
    rw [Function.update_same]
  constructor
  · show (stressStage g h (energyStage g h (thirdLoop g h
      (secondLoop g h (resetStage g h s))))).forces (g.energy_p + h) = _
    rw [hss, hen, h3]
  · simp only [energyStage]
    rw [h3]

/-- Witness for C4 at a concrete instance: one configuration of one atom,
energy slot `30`, stress slots `40..45`. -/
theorem stiweb_C4_witness :
    (∀ i c : ℕ, i < cGlobals.inconf 0 → c < 3 →
      3 * (cGlobals.cnfstart 0 + i) + c ≠ cGlobals.energy_p + 0)
    ∧ (∀ c : ℕ, c < 6 →
      cGlobals.stress_p + 6 * 0 + c ≠ cGlobals.energy_p + 0)
    ∧ ((configEval cGlobals 0 cState).forces (cGlobals.energy_p + 0) =
        (secondLoop cGlobals 0 (resetStage cGlobals 0 cState)).forces
            (cGlobals.energy_p + 0) / (cGlobals.inconf 0 : ℝ)
          - cGlobals.force_0 (cGlobals.energy_p + 0)
    ∧ (energyStage cGlobals 0 (thirdLoop cGlobals 0
          (secondLoop cGlobals 0 (resetStage cGlobals 0 cState)))).tmpsum =
        (thirdLoop cGlobals 0 (secondLoop cGlobals 0
            (resetStage cGlobals 0 cState))).tmpsum
          + cGlobals.conf_weight 0 * cGlobals.eweight *
            dsquare ((secondLoop cGlobals 0 (resetStage cGlobals 0 cState)).forces
                (cGlobals.energy_p + 0) / (cGlobals.inconf 0 : ℝ)
              - cGlobals.force_0 (cGlobals.energy_p + 0))) := by
  have h1 : ∀ i c : ℕ, i < cGlobals.inconf 0 → c < 3 →
      3 * (cGlobals.cnfstart 0 + i) + c ≠ cGlobals.energy_p + 0 := by
    intro i c hi hc
    simp only [cGlobals] at hi ⊢
    omega
  have h2 : ∀ c : ℕ, c < 6 →
      cGlobals.stress_p + 6 * 0 + c ≠ cGlobals.energy_p + 0 := by
    intro c hc
    simp only [cGlobals]
    omega
  exact ⟨h1, h2, stiweb_C4 cGlobals 0 cState h1 h2⟩

/-! ## Claim about adaptive force weighting (`FWEIGHT`) -/

/-- C6: the claim says the adaptive force-weighting divisor is per-atom,
taken from the atom whose residual is being scaled; the source instead
reads `atom->absforce` through the pointer left over from the second
loop, i.e. the last atom of the configuration, for every atom.  At the
concrete input `gC6`/`sC6` (two atoms with `absforce` `1` and `3`,
`FORCE_EPS = 1`, atom `0` carrying residual `1`), the code divides atom
`0`'s residual by `1 + 3`, producing `1/4`, while the per-atom rule of
the claim produces `1/2`. -/
theorem stiweb_C6_code :
    (thirdLoop gC6 0 sC6).forces 0 = 1 / 4
    ∧ (thirdLoopPerAtom gC6 0 sC6).forces 0 = 1 / 2
    ∧ ((1 : ℝ) / 4 ≠ 1 / 2)
    ∧ (thirdLoop gC6 0 sC6).forces 0 ≠ (thirdLoopPerAtom gC6 0 sC6).forces 0 := by
  have hc : (thirdLoop gC6 0 sC6).forces 0 = 1 / 4 := by
    simp [thirdLoop, gC6, atomA, atomB, sC6, iterate, iterateAux, Function.update]
    norm_num
  have hs : (thirdLoopPerAtom gC6 0 sC6).forces 0 = 1 / 2 := by
    simp [thirdLoopPerAtom, gC6, atomA, atomB, sC6, iterate, iterateAux,
      Function.update]
    norm_num
  refine ⟨hc, hs, by norm_num, ?_⟩
  rw [hc, hs]
  norm_num

/-! ## Claim about the three-body enumeration -/

theorem v3_val_eq (sw : SwParams) (ti : ℕ) (nj nk : Neigh) (c : ℝ) :
    v3_val sw ti nj nk c =
      sw.lambda ti nj.typ nk.typ * envF sw nj * envF sw nk * (c + 1 / 3) ^ 2 := by
  unfold v3_val
  ring

theorem tripleBody_energy (g : Globals) (us : Bool) (a : Atom)
    (eS sB k l : ℕ) (nj : Neigh) (kk ijk : ℕ) (t : CalcState)
    (hkc : ∀ c : ℕ, c < 3 → k + c ≠ eS)
    (hl : ∀ c : ℕ, c < 3 → l + c ≠ eS)
    (hm : ∀ c : ℕ, c < 3 → 3 * (a.neigh kk).nr + c ≠ eS)
    (hsc : ∀ c : ℕ, c < 6 → sB + c ≠ eS) :
    (tripleBody g us a eS sB k l nj kk ijk t).forces eS =
      t.forces eS +
        (if (a.neigh kk).r < g.sw.a2 (a.neigh kk).col ∧
            g.sw.lambda a.typ nj.typ (a.neigh kk).typ ≠ 0
         then v3_val g.sw a.typ nj (a.neigh kk) (a.angl ijk) else 0) := by
  by_cases h1 : (a.neigh kk).r < g.sw.a2 (a.neigh kk).col
  · by_cases h2 : g.sw.lambda a.typ nj.typ (a.neigh kk).typ = 0
    · have hbody : tripleBody g us a eS sB k l nj kk ijk t = t := by
        simp only [tripleBody]
        rw [if_pos h1, if_pos h2]
      rw [hbody, if_neg (fun hc => hc.2 h2), add_zero]
    · have hred : (tripleBody g us a eS sB k l nj kk ijk t).forces =
          (if g.stressOn && us then
            addStress (bump3 (bump3 (bump3 (bump t.forces eS
                (v3_val g.sw a.typ nj (a.neigh kk) (a.angl ijk))) k
                (V3.add (force_j_sw g.sw a.typ nj (a.neigh kk) (a.angl ijk))
                  (force_k_sw g.sw a.typ nj (a.neigh kk) (a.angl ijk))))
                l (V3.neg (force_j_sw g.sw a.typ nj (a.neigh kk) (a.angl ijk))))
                (3 * (a.neigh kk).nr)
                (V3.neg (force_k_sw g.sw a.typ nj (a.neigh kk) (a.angl ijk))))
              sB (tripleStressAdd (force_j_sw g.sw a.typ nj (a.neigh kk) (a.angl ijk))
                nj.rdist (force_k_sw g.sw a.typ nj (a.neigh kk) (a.angl ijk))
                (a.neigh kk).rdist)
          else bump3 (bump3 (bump3 (bump t.forces eS
                (v3_val g.sw a.typ nj (a.neigh kk) (a.angl ijk))) k
                (V3.add (force_j_sw g.sw a.typ nj (a.neigh kk) (a.angl ijk))
                  (force_k_sw g.sw a.typ nj (a.neigh kk) (a.angl ijk))))
                l (V3.neg (force_j_sw g.sw a.typ nj (a.neigh kk) (a.angl ijk))))
                (3 * (a.neigh kk).nr)
                (V3.neg (force_k_sw g.sw a.typ nj (a.neigh kk) (a.angl ijk)))) := by
        simp only [tripleBody]
        rw [if_pos h1, if_neg h2]
      rw [hred, apply_ite (fun f : ℕ → ℝ => f eS),
        addStress_other _ _ _ eS (fun c hc => by have := hsc c hc; omega),
        ite_self,
        bump3_other _ _ _ eS (by have := hm 0 (by omega); omega)
          (by have := hm 1 (by omega); omega)
          (by have := hm 2 (by omega); omega),
        bump3_other _ _ _ eS (by have := hl 0 (by omega); omega)
          (by have := hl 1 (by omega); omega)
          (by have := hl 2 (by omega); omega),
        bump3_other _ _ _ eS (by have := hkc 0 (by omega); omega)
          (by have := hkc 1 (by omega); omega)
          (by have := hkc 2 (by omega); omega),
        bump_same, if_pos (And.intro h1 h2)]
  · have hbody : tripleBody g us a eS sB k l nj kk ijk t = t := by
      simp only [tripleBody]
      rw [if_neg h1]
    rw [hbody, if_neg (fun hc => h1 hc.1), add_zero]

theorem tripleInnerAux_energy (g : Globals) (us : Bool) (a : Atom)
    (eS sB k l : ℕ) (nj : Neigh)
    (hkc : ∀ c : ℕ, c < 3 → k + c ≠ eS)
    (hl : ∀ c : ℕ, c < 3 → l + c ≠ eS)
    (hfr : ∀ tt c : ℕ, c < 3 → 3 * (a.neigh tt).nr + c ≠ eS)
    (hsc : ∀ c : ℕ, c < 6 → sB + c ≠ eS) :
    ∀ (fuel kk ijk : ℕ) (t : CalcState),
      (tripleInnerAux g us a eS sB k l nj fuel kk ijk t).forces eS =
        t.forces eS + ∑ x ∈ Finset.range fuel,
          (if (a.neigh (kk + x)).r < g.sw.a2 (a.neigh (kk + x)).col ∧
              g.sw.lambda a.typ nj.typ (a.neigh (kk + x)).typ ≠ 0
           then v3_val g.sw a.typ nj (a.neigh (kk + x)) (a.angl (ijk + x))
           else 0) := by
  intro fuel
  induction fuel with
  | zero =>
      intro kk ijk t
      simp [tripleInnerAux]
  | succ m ih =>
      intro kk ijk t
      show (tripleInnerAux g us a eS sB k l nj m (kk + 1) (ijk + 1)
        (tripleBody g us a eS sB k l nj kk ijk t)).forces eS = _
      rw [ih, tripleBody_energy g us a eS sB k l nj kk ijk t hkc hl (hfr kk) hsc,
        Finset.sum_range_succ']
      have hsum : ∑ x ∈ Finset.range m,
          (if (a.neigh (kk + 1 + x)).r < g.sw.a2 (a.neigh (kk + 1 + x)).col ∧
              g.sw.lambda a.typ nj.typ (a.neigh (kk + 1 + x)).typ ≠ 0
           then v3_val g.sw a.typ nj (a.neigh (kk + 1 + x)) (a.angl (ijk + 1 + x))
           else 0) =
          ∑ x ∈ Finset.range m,
          (if (a.neigh (kk + (x + 1))).r < g.sw.a2 (a.neigh (kk + (x + 1))).col ∧
              g.sw.lambda a.typ nj.typ (a.neigh (kk + (x + 1))).typ ≠ 0
           then v3_val g.sw a.typ nj (a.neigh (kk + (x + 1))) (a.angl (ijk + (x + 1)))
           else 0) := by
        apply Finset.sum_congr rfl
        intro x _
        rw [show kk + 1 + x = kk + (x + 1) from by omega,
          show ijk + 1 + x = ijk + (x + 1) from by omega]
      rw [hsum, Nat.add_zero kk, Nat.add_zero ijk]
      ring

theorem sum_ordered_pairs (n : ℕ) (f : ℕ → ℕ → ℝ) :
    ∑ jj ∈ Finset.range n, ∑ kk ∈ Finset.Ico (jj + 1) n, f jj kk =
      ∑ p ∈ (Finset.range n ×ˢ Finset.range n).filter (fun p => p.1 < p.2),
        f p.1 p.2 := by
  rw [Finset.sum_filter, Finset.sum_product]
  apply Finset.sum_congr rfl
  intro jj _
  have hico : Finset.Ico (jj + 1) n = (Finset.range n).filter (fun kk => jj < kk) := by
    ext x
    simp only [Finset.mem_Ico, Finset.mem_filter, Finset.mem_range]
    omega
  rw [hico, Finset.sum_filter]

theorem tripleOuter_energy (g : Globals) (us : Bool) (a : Atom)
    (eS sB k : ℕ)
    (hkc : ∀ c : ℕ, c < 3 → k + c ≠ eS)
    (hfr : ∀ tt c : ℕ, c < 3 → 3 * (a.neigh tt).nr + c ≠ eS)
    (hsc : ∀ c : ℕ, c < 6 → sB + c ≠ eS) :
    ∀ (b : ℕ) (t : CalcState),
      (iterate (tripleOuterBody g us a eS sB k) 0 b t).forces eS =
        t.forces eS + ∑ jj ∈ Finset.range b,
          (if (a.neigh jj).r < g.sw.a2 (a.neigh jj).col
           then ∑ kk ∈ Finset.Ico (jj + 1) a.n_neigh,
             (if (a.neigh kk).r < g.sw.a2 (a.neigh kk).col ∧
                 g.sw.lambda a.typ (a.neigh jj).typ (a.neigh kk).typ ≠ 0
              then v3_val g.sw a.typ (a.neigh jj) (a.neigh kk)
                (a.angl ((a.neigh jj).ijk_start + (kk - jj - 1)))
              else 0)
           else 0) := by
  intro b
  induction b with
  | zero =>
      intro t
      simp [iterate_of_ge]
  | succ m ih =>
      intro t
      rw [iterate_succ_top _ _ _ _ (Nat.zero_le m)]
      have hbody : ∀ u : CalcState,
          (tripleOuterBody g us a eS sB k m u).forces eS =
            u.forces eS +
              (if (a.neigh m).r < g.sw.a2 (a.neigh m).col
               then ∑ kk ∈ Finset.Ico (m + 1) a.n_neigh,
                 (if (a.neigh kk).r < g.sw.a2 (a.neigh kk).col ∧
                     g.sw.lambda a.typ (a.neigh m).typ (a.neigh kk).typ ≠ 0
                  then v3_val g.sw a.typ (a.neigh m) (a.neigh kk)
                    (a.angl ((a.neigh m).ijk_start + (kk - m - 1)))
                  else 0)
               else 0) := by
        intro u
        unfold tripleOuterBody
        by_cases hg : (a.neigh m).r < g.sw.a2 (a.neigh m).col
        · rw [if_pos hg, if_pos hg]
          unfold tripleInner
          rw [tripleInnerAux_energy g us a eS sB k (3 * (a.neigh m).nr)
            (a.neigh m) hkc (hfr m) hfr hsc (a.n_neigh - (m + 1)) (m + 1)
            (a.neigh m).ijk_start u]
          congr 1
          rw [Finset.sum_Ico_eq_sum_range]
          apply Finset.sum_congr rfl
          intro x _
          rw [show m + 1 + x - m - 1 = x from by omega]
        · rw [if_neg hg, if_neg hg, add_zero]
      rw [hbody, ih, Finset.sum_range_succ]
      ring

/-- C2: for every central atom, the three-body energy pass visits each
unordered pair of distinct neighbor entries exactly once, via the ordered
`jj < kk` enumeration with no halving — the accumulated energy equals the
sum, over all index pairs `jj < kk`, of
`lambda * f_j * f_k * (cos + 1/3)^2` read from the precomputed angular
cache — and the three-body contribution is exactly zero whenever either
neighbor lies at or beyond its `a2` cutoff or the coupling `lambda` is
zero: such pairs contribute `0` to the sum, an out-of-range `jj` skips
its whole inner loop, and an out-of-range `kk` or zero `lambda` leaves
the state unchanged. -/
theorem stiweb_C2 (g : Globals) (us : Bool) (a : Atom) (eS sB k : ℕ)
    (s : CalcState)
    (hkc : ∀ c : ℕ, c < 3 → k + c ≠ eS)
    (hfr : ∀ tt c : ℕ, c < 3 → 3 * (a.neigh tt).nr + c ≠ eS)
    (hsc : ∀ c : ℕ, c < 6 → sB + c ≠ eS) :
    (tripleOuter g us a eS sB k s).forces eS =
        s.forces eS +
          ∑ p ∈ (Finset.range a.n_neigh ×ˢ Finset.range a.n_neigh).filter
            (fun p => p.1 < p.2), tripleSpecTerm g.sw a p.1 p.2
    ∧ (∀ jj kk : ℕ,
        (¬ (a.neigh jj).r < g.sw.a2 (a.neigh jj).col ∨
          ¬ (a.neigh kk).r < g.sw.a2 (a.neigh kk).col ∨
          g.sw.lambda a.typ (a.neigh jj).typ (a.neigh kk).typ = 0) →
        tripleSpecTerm g.sw a jj kk = 0)
    ∧ (∀ (jj : ℕ) (t : CalcState),
        g.sw.a2 (a.neigh jj).col ≤ (a.neigh jj).r →
        tripleOuterBody g us a eS sB k jj t = t)
    ∧ (∀ (nj : Neigh) (kk ijk l : ℕ) (t : CalcState),
        g.sw.a2 (a.neigh kk).col ≤ (a.neigh kk).r ∨
          g.sw.lambda a.typ nj.typ (a.neigh kk).typ = 0 →
        tripleBody g us a eS sB k l nj kk ijk t = t) := by
  refine ⟨?_, ?_, ?_, ?_⟩
  · unfold tripleOuter
    rw [tripleOuter_energy g us a eS sB k hkc hfr hsc (a.n_neigh - 1) s]
    congr 1
    have hstep : ∀ jj : ℕ,
        (if (a.neigh jj).r < g.sw.a2 (a.neigh jj).col
         then ∑ kk ∈ Finset.Ico (jj + 1) a.n_neigh,
           (if (a.neigh kk).r < g.sw.a2 (a.neigh kk).col ∧
               g.sw.lambda a.typ (a.neigh jj).typ (a.neigh kk).typ ≠ 0
            then v3_val g.sw a.typ (a.neigh jj) (a.neigh kk)
              (a.angl ((a.neigh jj).ijk_start + (kk - jj - 1)))
            else 0)
         else 0) =
        ∑ kk ∈ Finset.Ico (jj + 1) a.n_neigh, tripleSpecTerm g.sw a jj kk := by
      intro jj
      by_cases hg : (a.neigh jj).r < g.sw.a2 (a.neigh jj).col
      · rw [if_pos hg]
        apply Finset.sum_congr rfl
        intro kk _
        unfold tripleSpecTerm
        by_cases hc : (a.neigh kk).r < g.sw.a2 (a.neigh kk).col ∧
            g.sw.lambda a.typ (a.neigh jj).typ (a.neigh kk).typ ≠ 0
        · rw [if_pos hc, if_pos ⟨hg, hc.1, hc.2⟩, v3_val_eq]
        · rw [if_neg hc, if_neg (fun hx => hc ⟨hx.2.1, hx.2.2⟩)]
      · rw [if_neg hg]
        symm
        apply Finset.sum_eq_zero
        intro kk _
        unfold tripleSpecTerm
        rw [if_neg (fun hx => hg hx.1)]
    have hext : ∑ jj ∈ Finset.range (a.n_neigh - 1),
        ∑ kk ∈ Finset.Ico (jj + 1) a.n_neigh, tripleSpecTerm g.sw a jj kk =
        ∑ jj ∈ Finset.range a.n_neigh,
        ∑ kk ∈ Finset.Ico (jj + 1) a.n_neigh, tripleSpecTerm g.sw a jj kk := by
      rcases hn : a.n_neigh with _ | m
      · simp
      · rw [Finset.sum_range_succ]
        have hempty : ∑ kk ∈ Finset.Ico (m + 1) (m + 1),
            tripleSpecTerm g.sw a m kk = 0 := by
          rw [Finset.Ico_self, Finset.sum_empty]
        rw [hempty, add_zero]
        simp
    calc ∑ jj ∈ Finset.range (a.n_neigh - 1),
          (if (a.neigh jj).r < g.sw.a2 (a.neigh jj).col
           then ∑ kk ∈ Finset.Ico (jj + 1) a.n_neigh,
             (if (a.neigh kk).r < g.sw.a2 (a.neigh kk).col ∧
                 g.sw.lambda a.typ (a.neigh jj).typ (a.neigh kk).typ ≠ 0
              then v3_val g.sw a.typ (a.neigh jj) (a.neigh kk)
                (a.angl ((a.neigh jj).ijk_start + (kk - jj - 1)))
              else 0)
           else 0)
        = ∑ jj ∈ Finset.range (a.n_neigh - 1),
            ∑ kk ∈ Finset.Ico (jj + 1) a.n_neigh, tripleSpecTerm g.sw a jj kk := by
          exact Finset.sum_congr rfl (fun jj _ => hstep jj)
      _ = ∑ jj ∈ Finset.range a.n_neigh,
            ∑ kk ∈ Finset.Ico (jj + 1) a.n_neigh, tripleSpecTerm g.sw a jj kk := hext
      _ = ∑ p ∈ (Finset.range a.n_neigh ×ˢ Finset.range a.n_neigh).filter
            (fun p => p.1 < p.2), tripleSpecTerm g.sw a p.1 p.2 :=
          sum_ordered_pairs a.n_neigh (fun jj kk => tripleSpecTerm g.sw a jj kk)
  · intro jj kk hcond
    unfold tripleSpecTerm
    rcases hcond with hcond | hcond | hcond
    · rw [if_neg (fun hx => hcond hx.1)]
    · rw [if_neg (fun hx => hcond hx.2.1)]
    · rw [if_neg (fun hx => hx.2.2 hcond)]
  · intro jj t hge
    unfold tripleOuterBody
    rw [if_neg (not_lt.mpr hge)]
  · intro nj kk ijk l t hcond
    rcases hcond with hge | hlam
    · simp only [tripleBody]
      rw [if_neg (not_lt.mpr hge)]
    · simp only [tripleBody]
      by_cases hr : (a.neigh kk).r < g.sw.a2 (a.neigh kk).col
      · rw [if_pos hr, if_pos hlam]
      · rw [if_neg hr]

/-- Witness for C2 at a concrete instance: the two-neighbor atom `cAtom`
with energy slot `30`, stress base `40` and central force slots `9..11`. -/
theorem stiweb_C2_witness :
    (∀ c : ℕ, c < 3 → 9 + c ≠ 30)
    ∧ (∀ tt c : ℕ, c < 3 → 3 * (cAtom.neigh tt).nr + c ≠ 30)
    ∧ (∀ c : ℕ, c < 6 → 40 + c ≠ 30)
    ∧ ((tripleOuter cGlobals false cAtom 30 40 9 cState).forces 30 =
        cState.forces 30 +
          ∑ p ∈ (Finset.range cAtom.n_neigh ×ˢ Finset.range cAtom.n_neigh).filter
            (fun p => p.1 < p.2), tripleSpecTerm cGlobals.sw cAtom p.1 p.2) := by
  have h1 : ∀ c : ℕ, c < 3 → 9 + c ≠ 30 := by intro c hc; omega
  have h2 : ∀ tt c : ℕ, c < 3 → 3 * (cAtom.neigh tt).nr + c ≠ 30 := by
    intro tt c hc
    by_cases htt : tt = 0
    · simp [cAtom, cNeigh, htt]
      omega
    · simp [cAtom, cNeigh2, htt]
      omega
  have h3 : ∀ c : ℕ, c < 6 → 40 + c ≠ 30 := by intro c hc; omega
  exact ⟨h1, h2, h3, (stiweb_C2 cGlobals false cAtom 30 40 9 cState h1 h2 h3).1⟩

end Stiweb
